import Mathlib

/-!
Verification development for the deep-link path-to-state resolver
(`getStateFromPath` and its helpers) of the expo-router fork.

The TypeScript source is shallowly embedded: every function of
`src/packages/expo-router/src/fork/getStateFromPath.ts` and
`src/packages/expo-router/src/fork/getStateFromPath-forks.ts` that the claims
depend on is translated into an executable Lean definition of the same name.
JavaScript runtime facilities (the WHATWG `URL` constructor, `decodeURIComponent`,
`Array.prototype.sort`, `Number`) and collaborator functions that live outside
the provided sources (`matchGroupName`, `stripGroupSegmentsFromPath`,
`findFocusedRoute`) are modelled explicitly; each such model carries a doc
comment saying what it models.

Environment model: `process.env.EXPO_BASE_URL` is unset and `NODE_ENV` is not
`production` (the development default), so base-URL stripping is inactive and
diagnostics are emitted.
-/

namespace Expo

/-- JS string truthiness for an optional string (`undefined` and `""` are falsy). -/
def truthyStr : Option String → Bool
  | none => false
  | some s => s ≠ ""

/-- `String.prototype.startsWith`, computed on the character lists (the
core `String.startsWith` does not reduce inside the kernel). -/
def jsStartsWith (s p : String) : Bool :=
  p.data.isPrefixOf s.data

/-- `String.prototype.endsWith`, computed on the character lists. -/
def jsEndsWith (s p : String) : Bool :=
  p.data.isSuffixOf s.data

/-- `String.prototype.split` with a single-character separator (the JS
semantics: `''.split(c)` is `['']`, separators at the ends produce empty
pieces). -/
def splitOnChar (c : Char) (s : String) : List String :=
  go s.data []
where
  go : List Char → List Char → List String
    | [], acc => [String.mk acc.reverse]
    | x :: rest, acc =>
      if x = c then String.mk acc.reverse :: go rest [] else go rest (x :: acc)

/-- Substring containment (JS `String.prototype.includes`). -/
def containsSubstr (s sub : String) : Bool :=
  go s.data
where
  go : List Char → Bool
    | [] => sub.data.isPrefixOf []
    | c :: rest => if sub.data.isPrefixOf (c :: rest) then true else go rest

/-- Index of the first occurrence of a substring. -/
def indexOfSubstr (s sub : String) : Option Nat :=
  go s.data 0
where
  go : List Char → Nat → Option Nat
    | [], i => if sub.data.isPrefixOf [] then some i else none
    | c :: rest, i => if sub.data.isPrefixOf (c :: rest) then some i else go rest (i + 1)

/-- One step of `String.replace(/\/+/g, '/')`: collapse every run of slashes to one. -/
def collapseSlashes (s : String) : String :=
  String.mk (go false s.data)
where
  go : Bool → List Char → List Char
    | _, [] => []
    | afterSlash, c :: rest =>
      if c = '/' then
        if afterSlash then go true rest else '/' :: go true rest
      else c :: go false rest

/-- `String.replace(/^\/+/g, '')`: drop every leading slash. -/
def dropLeadingSlashes (s : String) : String :=
  String.mk (s.data.dropWhile (· = '/'))

/-- `String.replace(/\/+$/g, '')`: drop every trailing slash. -/
def dropTrailingSlashes (s : String) : String :=
  String.mk (s.data.reverse.dropWhile (· = '/')).reverse

/-- `String.replace(/^\//, '')`: drop one leading slash if present. -/
def dropOneLeadingSlash (s : String) : String :=
  if jsStartsWith s "/" then s.drop 1 else s

/-- `String.replace(/\/$/, '')`: drop one trailing slash if present. -/
def dropOneTrailingSlash (s : String) : String :=
  if jsEndsWith s "/" then s.dropRight 1 else s

/-- `String.replace(/\?.*$/, '')`: cut the string at the first `?`. -/
def dropFromQuestionMark (s : String) : String :=
  String.mk (s.data.takeWhile (· ≠ '?'))

/-- JS `s.replace(lit, '')` for a literal search string: remove the first
occurrence of `lit` (if any) from `s`. -/
def removeFirstOccurrence (s lit : String) : String :=
  String.mk (go s.data lit.data)
where
  go : List Char → List Char → List Char
    | [], _ => []
    | c :: rest, lit =>
      if lit.isPrefixOf (c :: rest) then (c :: rest).drop lit.length
      else c :: go rest lit

/-- JS `s.replace(' ', '%20')`: replace only the first space. -/
def replaceFirstSpace (s : String) : String :=
  String.mk (go s.data)
where
  go : List Char → List Char
    | [] => []
    | ' ' :: rest => '%' :: '2' :: '0' :: rest
    | c :: rest => c :: go rest

/-- Split a string at the first occurrence of a character: returns
(before, after-with-marker?) where the second component is `none` when the
character does not occur and `some rest` (rest excluding the marker) otherwise. -/
def splitAtFirst (s : String) (c : Char) : String × Option String :=
  go s.data []
where
  go : List Char → List Char → String × Option String
    | [], acc => (String.mk acc.reverse, none)
    | x :: rest, acc =>
      if x = c then (String.mk acc.reverse, some (String.mk rest))
      else go rest (x :: acc)

/-- Values that can appear in a params record: strings (raw captures / query
values), numbers (results of a `Number` coercer) and arrays (repeated query keys). -/
inductive Value where
  | vstr (s : String)
  | vnum (n : Int)
  | varr (l : List Value)

/-- A JS plain object used as a string-keyed record, modelled as an ordered
association list (JS objects preserve insertion order for string keys). -/
abbrev Rec := List (String × Value)

/-- Property read `m[k]`. -/
def lookupRec (m : Rec) (k : String) : Option Value :=
  (m.find? (fun p => p.1 = k)).map (·.2)

/-- Property write `m[k] = v`: updates an existing key in place, else appends. -/
def setRec (m : Rec) (k : String) (v : Value) : Rec :=
  if (m.find? (fun p => p.1 = k)).isSome then
    m.map (fun p => if p.1 = k then (k, v) else p)
  else m ++ [(k, v)]

/-- `Object.assign(a, b)`: copy every own property of `b` onto `a`, in order. -/
def assignRec (a b : Rec) : Rec :=
  b.foldl (fun acc p => setRec acc p.1 p.2) a

/-- JS truthiness of a property read result (used by `if (route.params?.[name])`
and similar guards): `undefined`, `''` and `0` are falsy, arrays are truthy. -/
def truthyVal : Option Value → Bool
  | none => false
  | some (.vstr s) => s ≠ ""
  | some (.vnum n) => n ≠ 0
  | some (.varr _) => true

/-- The value of a hexadecimal digit, case-insensitive. -/
def hexDigitVal (c : Char) : Option Nat :=
  if '0' ≤ c ∧ c ≤ '9' then some (c.toNat - '0'.toNat)
  else if 'a' ≤ c ∧ c ≤ 'f' then some (c.toNat - 'a'.toNat + 10)
  else if 'A' ≤ c ∧ c ≤ 'F' then some (c.toNat - 'A'.toNat + 10)
  else none

/-- Model of the byte-level percent-decoding performed by `URLSearchParams`
(which never throws: it decodes well-formed `%hh` escapes and leaves anything
else untouched); multibyte replacement-character handling is not modelled, and
no claim below feeds multibyte escapes to the query parser. -/
def searchParamDecode (s : String) : String :=
  String.mk (go s.data)
where
  go : List Char → List Char
    | [] => []
    | '%' :: h1 :: h2 :: rest =>
      match hexDigitVal h1, hexDigitVal h2 with
      | some a, some b => Char.ofNat (a * 16 + b) :: go rest
      | _, _ => '%' :: go (h1 :: h2 :: rest)
    | c :: rest => c :: go rest

/-- The message of the `URIError` thrown by the JS host decoder on a malformed
escape sequence. -/
def uriError : String := "URIError: URI malformed"

/-- Read one percent-escape `%hh` off the front of the character list;
`none` when the list does not start with a complete escape. -/
def readEscByte : List Char → Option (Nat × List Char)
  | '%' :: h1 :: h2 :: rest =>
    match hexDigitVal h1, hexDigitVal h2 with
    | some a, some b => some (a * 16 + b, rest)
    | _, _ => none
  | _ => none

/-- Read one percent-escaped UTF-8 continuation byte constrained to
`lo ≤ b ≤ hi`. -/
def readContByte (lo hi : Nat) (cs : List Char) : Option (Nat × List Char) :=
  match readEscByte cs with
  | some (b, rest) => if lo ≤ b ∧ b ≤ hi then some (b, rest) else none
  | none => none

/-- Given the leading byte `b` of a multibyte UTF-8 sequence, read its
percent-escaped continuation bytes and assemble the code point. The leading
and continuation byte ranges are the strict UTF-8 ones (no overlong forms, no
surrogates, nothing above U+10FFFF); any violation is `none`. -/
def utf8Continue (b : Nat) (cs : List Char) : Option (Nat × List Char) :=
  if 0xC2 ≤ b ∧ b ≤ 0xDF then
    match readContByte 0x80 0xBF cs with
    | some (b2, r) => some ((b - 0xC0) * 64 + (b2 - 0x80), r)
    | none => none
  else if 0xE0 ≤ b ∧ b ≤ 0xEF then
    let lo2 := if b = 0xE0 then 0xA0 else 0x80
    let hi2 := if b = 0xED then 0x9F else 0xBF
    match readContByte lo2 hi2 cs with
    | some (b2, r1) =>
      match readContByte 0x80 0xBF r1 with
      | some (b3, r2) => some ((b - 0xE0) * 4096 + (b2 - 0x80) * 64 + (b3 - 0x80), r2)
      | none => none
    | none => none
  else if 0xF0 ≤ b ∧ b ≤ 0xF4 then
    let lo2 := if b = 0xF0 then 0x90 else 0x80
    let hi2 := if b = 0xF4 then 0x8F else 0xBF
    match readContByte lo2 hi2 cs with
    | some (b2, r1) =>
      match readContByte 0x80 0xBF r1 with
      | some (b3, r2) =>
        match readContByte 0x80 0xBF r2 with
        | some (b4, r3) =>
          some ((b - 0xF0) * 262144 + (b2 - 0x80) * 4096 + (b3 - 0x80) * 64 + (b4 - 0x80), r3)
        | none => none
      | none => none
    | none => none
  else none

/-- The decoding loop of `decodeURIComponent`, fuelled by the input length
(each step consumes at least one character, so fuel never runs out on the
initial call): a `%` must start a complete escape; a decoded byte below `0x80`
stands alone, a larger one must lead a valid percent-escaped UTF-8 sequence;
every malformed escape is the single `URIError`. -/
def decodeGo : Nat → List Char → Except String (List Char)
  | _, [] => .ok []
  | 0, _ :: _ => .error uriError
  | fuel + 1, c :: cs =>
    if c = '%' then
      match readEscByte (c :: cs) with
      | none => .error uriError
      | some (b, rest) =>
        if b ≤ 0x7F then
          match decodeGo fuel rest with
          | .ok ds => .ok (Char.ofNat b :: ds)
          | .error e => .error e
        else
          match utf8Continue b rest with
          | none => .error uriError
          | some (cp, rest2) =>
            match decodeGo fuel rest2 with
            | .ok ds => .ok (Char.ofNat cp :: ds)
            | .error e => .error e
    else
      match decodeGo fuel cs with
      | .ok ds => .ok (c :: ds)
      | .error e => .error e

/-- Model of the JS host function `decodeURIComponent`: decodes percent-escaped
UTF-8 and throws `URIError` on a malformed or incomplete escape (a lone `%`,
non-hex digits, a stray continuation byte, an overlong or truncated multibyte
sequence); characters that are not part of an escape pass through unchanged. -/
def decodeURIComponent (s : String) : Except String String :=
  match decodeGo s.data.length s.data with
  | .ok ds => .ok (String.mk ds)
  | .error e => .error e

/-- Model of the JS `Number` conversion applied to a captured string (the
`parse: { id: Number }` idiom): a non-empty all-digit string becomes that
integer; anything else is modelled as the number 0 (standing in for `NaN`,
which none of the verified inputs produce). -/
def jsNumber (s : String) : Value :=
  if s ≠ "" ∧ s.data.all Char.isDigit then
    .vnum (s.data.foldl (fun n c => n * 10 + (c.toNat - '0'.toNat)) 0)
  else .vnum 0

/-- The pieces of a parsed URL that the resolver reads: `pathname`, `search`
(with leading `?`, or empty) and the fragment (without `#`). -/
structure URLParts where
  pathname : String
  search : String
  hash : String

/-- Model of the WHATWG URL constructor `new URL(path, 'https://phony.example')`
(a host builtin). The fragment is split at the first `#`, the query at the
first `?`. A protocol-relative (`//host/...`) or absolute (`scheme://host/...`)
input re-parses its host: an empty host or a host containing a space makes the
URL unparseable (`none`, the constructor throwing). Any other input is a
relative reference resolved against the phony origin, so its pathname is the
input path with a leading slash ensured. Percent-encoding normalisation and
dot-segment removal performed by real URL parsers are not modelled; no claim
below depends on them. -/
def parseURL (s : String) : Option URLParts :=
  let (beforeHash, hashOpt) := splitAtFirst s '#'
  let (beforeQ, queryOpt) := splitAtFirst beforeHash '?'
  let hash := hashOpt.getD ""
  let search := match queryOpt with
    | some q => if q = "" then "" else "?" ++ q
    | none => ""
  let mkParts (pathname : String) : URLParts := ⟨pathname, search, hash⟩
  if jsStartsWith beforeQ "//" then
    let afterSlashes := beforeQ.drop 2
    let host := String.mk (afterSlashes.data.takeWhile (· ≠ '/'))
    let rest := afterSlashes.drop host.length
    if host = "" ∨ host.data.any (· = ' ') then none
    else some (mkParts (if rest = "" then "/" else rest))
  else if (indexOfSubstr beforeQ "://").isSome then
    let schemeLen := (indexOfSubstr beforeQ "://").getD 0
    let afterScheme := beforeQ.drop (schemeLen + 3)
    let host := String.mk (afterScheme.data.takeWhile (· ≠ '/'))
    let rest := afterScheme.drop host.length
    if host = "" ∨ host.data.any (· = ' ') then none
    else some (mkParts (if rest = "" then "/" else rest))
  else
    some (mkParts (if jsStartsWith beforeQ "/" then beforeQ else "/" ++ beforeQ))

/-- One query pair, in document order, as produced by `URLSearchParams`:
`+` means space and percent-escapes are decoded in both key and value. -/
def parseSearchPairs (query : String) : List (String × String) :=
  (splitOnChar '&' query).filterMap fun piece =>
    if piece = "" then none
    else
      let (k, vOpt) := splitAtFirst piece '='
      some (decodeQueryPart k, decodeQueryPart (vOpt.getD ""))
where
  decodeQueryPart (t : String) : String :=
    searchParamDecode (String.mk (t.data.map fun c => if c = '+' then ' ' else c))

/-- Modelled from the spec: the route-group-name detector from
`expo-router`'s `matchers` module (its source is not in the provided files).
A group segment is written `(name)`: the segment must start with `(`, end with
`)` and have a non-empty inner text containing no slash; the inner text is
returned. -/
def matchGroupName (name : String) : Option String :=
  if jsStartsWith name "(" ∧ jsEndsWith name ")" ∧ name.length ≥ 3
      ∧ ((name.drop 1).dropRight 1).data.all (· ≠ '/') then
    some ((name.drop 1).dropRight 1)
  else none

/-- Modelled from the spec: the group-segment stripper from `expo-router`'s
`matchers` module (source not provided). Segments of the form `(name)` are
organisational only and are removed from the path. -/
def stripGroupSegmentsFromPath (path : String) : String :=
  String.intercalate "/" ((splitOnChar '/' path).filter (fun seg => matchGroupName seg = none))

/-- One compiled unit of a route pattern, the shallow embedding of the regex
fragment produced by `formatRegexPattern` for one pattern segment. -/
inductive Seg where
  /-- a literal segment: regex `escape(it)\/` -/
  | lit (s : String)
  /-- a dynamic segment `:name`: regex `(([^/]+\/))`, with a trailing `?` on the
  inner group when the name ends in `?` -/
  | dyn (opt : Bool)
  /-- a wildcard segment `*name`: regex `((.*\/))`, optional variant as above -/
  | wild (opt : Bool)
  /-- a group segment `(name)`: regex `(?:escape(it)\/)?`, non-capturing and optional -/
  | grp (s : String)

/-- `formatRegexPattern`: classify one pattern segment (after replacing the
first space by `%20`). The `escape-string-regexp` calls of the source make the
segment text match literally, which is what `Seg.lit`/`Seg.grp` do directly. -/
def formatRegexPattern (it : String) : Seg :=
  let it := replaceFirstSpace it
  if jsStartsWith it ":" then .dyn (jsEndsWith it "?")
  else if jsStartsWith it "*" then .wild (jsEndsWith it "?")
  else if (matchGroupName it).isSome then .grp it
  else .lit it

/-- The alternatives one compiled segment can take on the remaining string, in
the order a backtracking regex engine tries them (greedy first). Each
alternative is the consumed text together with the capture groups it
contributes (a dynamic or wildcard unit contributes two groups, outer then
inner; literals and non-capturing group segments contribute none). -/
def segAlternatives : Seg → String → List (String × List (Option String))
  | .lit l, s =>
    if jsStartsWith s (l ++ "/") then [(l ++ "/", [])] else []
  | .grp g, s =>
    if jsStartsWith s (g ++ "/") then [(g ++ "/", []), ("", [])] else [("", [])]
  | .dyn opt, s =>
    let chunk := String.mk (s.data.takeWhile (· ≠ '/'))
    let base :=
      if chunk ≠ "" ∧ jsStartsWith s (chunk ++ "/") then
        [(chunk ++ "/", [some (chunk ++ "/"), some (chunk ++ "/")])]
      else []
    if opt then base ++ [("", [some "", none])] else base
  | .wild opt, s =>
    let stops := (List.range s.length).reverse.filterMap fun i =>
      if s.data.getD i ' ' = '/' then
        let t := String.mk (s.data.take (i + 1))
        some (t, [some t, some t])
      else none
    if opt then stops ++ [("", [some "", none])] else stops

/-- Backtracking matcher for a compiled pattern against the whole remaining
string, anchored at both ends (the source regexes are `^...$`). Returns the
capture-group list (regex groups 1, 2, ...) of the first successful
alternative assignment, or `none` when the pattern does not match. -/
def matchSegs : List Seg → String → Option (List (Option String))
  | [], s => if s = "" then some [] else none
  | seg :: rest, s =>
    (segAlternatives seg s).findSome? fun alt =>
      (matchSegs rest (s.drop alt.1.length)).map (fun caps => alt.2 ++ caps)

/-- `match[i]` of a JS regex match result, where `i ≥ 1` indexes capture
groups: `none` both for an unmatched optional group and for an index past the
last group. -/
def matchGroup (caps : List (Option String)) (i : Nat) : Option String :=
  (caps.getD (i - 1) none)

/-- A per-route record of param coercers (`parse`). -/
abbrev ParseConfig := List (String × (String → Value))

/-- The flattened route record (`RouteConfig` of the source): one entry per
configuration chain that declares a path. -/
structure RouteConfig where
  screen : String
  regex : Option (List Seg)
  path : String
  pattern : String
  routeNames : List String
  parse : Option ParseConfig
  expandedRouteNames : List String
  userReadableName : String
  hasChildren : Bool

/-- `InitialRouteConfig` of the source. -/
structure InitialRouteConfig where
  initialRouteName : String
  parentScreens : List String

/-- `joinPaths`: split every piece on `/`, drop empty segments, rejoin. -/
def joinPaths (paths : List String) : String :=
  String.intercalate "/" (((paths.map (splitOnChar '/')).flatten).filter (· ≠ ""))

/-- `createConfigItem`: normalise the pattern, compile its regex (an empty
pattern compiles to no regex) and build the flattened record. -/
def createConfigItem (screen : String) (routeNames : List String) (pattern path : String)
    (parse : Option ParseConfig) (hasChildren : Bool) : RouteConfig :=
  let pattern := String.intercalate "/" ((splitOnChar '/' pattern).filter (· ≠ ""))
  { screen
    regex := if pattern ≠ "" then some ((splitOnChar '/' pattern).map formatRegexPattern) else none
    pattern
    path
    routeNames
    parse
    expandedRouteNames := routeNames.flatMap (splitOnChar '/')
    userReadableName := String.intercalate "/"
      (routeNames.dropLast ++ [if path ≠ "" then path else screen])
    hasChildren }

/-- The input route-configuration tree (`PathConfigMap` values): either a bare
pattern string or an object with optional `path`, `exact`, `parse`,
`initialRouteName` and nested `screens`. -/
inductive PathConfig where
  | str (pattern : String)
  | obj (path : Option String) (exact : Option Bool) (parse : Option ParseConfig)
        (initialRouteName : Option String) (screens : Option (List (String × PathConfig)))

/-- The screens map: name/config pairs in declaration order. -/
abbrev ScreensMap := List (String × PathConfig)

mutual

/-- `createNormalizedConfigs`: flatten one screen of the configuration tree.
The source mutates a shared `routeNames` chain (push/pop) and a global
`initials` list; here the chain is passed extended and the initial-route list
is threaded through as an accumulator. The source's unreachable
`exact`-without-`path` throw is kept verbatim (it sits inside the
`typeof config.path === 'string'` branch). -/
def createNormalizedConfigs (screen : String) (config : PathConfig)
    (routeNames : List String) (initials : List InitialRouteConfig)
    (parentScreens : List String) (parentPattern : Option String) :
    Except String (List RouteConfig × List InitialRouteConfig) :=
  let routeNames := routeNames ++ [screen]
  let parentScreens := parentScreens ++ [screen]
  match config with
  | .str s =>
    let pattern := match parentPattern with
      | some pp => joinPaths [pp, s]
      | none => s
    .ok ([createConfigItem screen routeNames pattern s none false], initials)
  | .obj pathOpt exact parse initialRouteName screens =>
    let ownStep : Except String (Option String × List RouteConfig) :=
      match pathOpt with
      | some p =>
        if exact = some true ∧ pathOpt = none then
          .error "A path needs to be specified when specifying exact true. If you do not want this screen in the URL, specify it as empty string."
        else
          let pattern :=
            if exact ≠ some true then joinPaths [parentPattern.getD "", p] else p
          .ok (some pattern,
            [createConfigItem screen routeNames pattern p parse
              (match screens with | some l => l.length ≠ 0 | none => false)])
      | none => .ok (none, [])
    match ownStep with
    | .error e => .error e
    | .ok (pattern, own) =>
      match screens with
      | none => .ok (own, initials)
      | some children =>
        let initials :=
          match initialRouteName with
          | some i => initials ++ [{ initialRouteName := i, parentScreens }]
          | none => initials
        match createChildConfigs children routeNames initials parentScreens
            (match pattern with | some p => some p | none => parentPattern) with
        | .error e => .error e
        | .ok (rest, initials') => .ok (own ++ rest, initials')

/-- Flatten a list of sibling screens in declaration order, threading the
initial-route accumulator. -/
def createChildConfigs (children : List (String × PathConfig))
    (routeNames : List String) (initials : List InitialRouteConfig)
    (parentScreens : List String) (parentPattern : Option String) :
    Except String (List RouteConfig × List InitialRouteConfig) :=
  match children with
  | [] => .ok ([], initials)
  | (name, cfg) :: rest =>
    match createNormalizedConfigs name cfg routeNames initials parentScreens parentPattern with
    | .error e => .error e
    | .ok (cs, initials') =>
      match createChildConfigs rest routeNames initials' parentScreens parentPattern with
      | .error e => .error e
      | .ok (cs', initials'') => .ok (cs ++ cs', initials'')

end

/-- The top of the flattening: one `createNormalizedConfigs` call per top-level
screen, each with a fresh empty chain, concatenated in declaration order
(the `Object.keys(screens).map` + `concat` of the source). -/
def createAllConfigs (screens : ScreensMap) (initials : List InitialRouteConfig) :
    Except String (List RouteConfig × List InitialRouteConfig) :=
  match screens with
  | [] => .ok ([], initials)
  | (name, cfg) :: rest =>
    match createNormalizedConfigs name cfg [] initials [] none with
    | .error e => .error e
    | .ok (cs, initials') =>
      match createAllConfigs rest initials' with
      | .error e => .error e
      | .ok (cs', initials'') => .ok (cs ++ cs', initials'')

/-- Model of `String.prototype.localeCompare` for the route names appearing in
configurations: plain code-point comparison returning -1/0/1. -/
def localeCompare (a b : String) : Int :=
  go a.data b.data
where
  go : List Char → List Char → Int
    | [], [] => 0
    | [], _ :: _ => -1
    | _ :: _, [] => 1
    | x :: xs, y :: ys => if x < y then -1 else if y < x then 1 else go xs ys

/-- `routeNames.join('>')`. -/
def joinGt (names : List String) : String :=
  String.intercalate ">" names

/-- The comparator's segment list for one route: the pattern split on `/` with
group segments removed, plus a synthetic trailing `index` segment when the
leaf screen is (or ends in) `index`. -/
def partsOf (c : RouteConfig) : List String :=
  ((splitOnChar '/' c.pattern).filter (fun part => matchGroupName part = none)) ++
    (if c.screen = "index" ∨ jsEndsWith c.screen "/index" then ["index"] else [])

/-- The comparator's static-route test: no child screens and no segment that
is dynamic (`:`), wildcard (`*`) or contains the reserved `*not-found`. -/
def isStaticRoute (c : RouteConfig) : Bool :=
  ¬c.hasChildren ∧
    ¬(partsOf c).any (fun part =>
      jsStartsWith part ":" ∨ jsStartsWith part "*" ∨ containsSubstr part "*not-found")

/-- The group-continuity count: how many entries of the previously-active
segment chain are group segments that coincide, at the same index, with the
route's expanded route names. -/
def similarToPrevious (previousSegments expanded : List String) : Nat :=
  (previousSegments.enum.filter fun p =>
    expanded.getD p.1 "" = p.2 ∧ jsStartsWith p.2 "(" ∧ jsEndsWith p.2 ")").length

/-- The segment-by-segment comparison loop of `sortConfigs`: `some r` when the
loop returns `r` from inside, `none` when it runs both lists out (and the
comparator falls through to the initial-route preference and length
tie-breaks). -/
def comparePartsLoop : List String → List String → Option Int
  | [], [] => none
  | [], _ :: _ => some 1
  | _ :: _, [] => some (-1)
  | pa :: ta, pb :: tb =>
    let aWild := jsStartsWith pa "*"
    let bWild := jsStartsWith pb "*"
    if aWild ∧ bWild then
      let aNotFound := pa = "*not-found"
      let bNotFound := pb = "*not-found"
      if aNotFound ∧ bNotFound then comparePartsLoop ta tb
      else if aNotFound then some 1
      else if bNotFound then some (-1)
      else comparePartsLoop ta tb
    else if aWild then some 1
    else if bWild then some (-1)
    else
      let aSlug := jsStartsWith pa ":"
      let bSlug := jsStartsWith pb ":"
      if aSlug ∧ bSlug then
        let aNotFound := pa = "*not-found"
        let bNotFound := pb = "*not-found"
        if aNotFound ∧ bNotFound then comparePartsLoop ta tb
        else if aNotFound then some 1
        else if bNotFound then some (-1)
        else comparePartsLoop ta tb
      else if aSlug then some 1
      else if bSlug then some (-1)
      else comparePartsLoop ta tb

/-- The comparator produced by `getSortConfigsFn`, with the initial-route
patterns and the previously-active segments closed over. Negative: `a` sorts
first; positive: `b` sorts first. -/
def sortConfigs (initialPatterns previousSegments : List String) (a b : RouteConfig) : Int :=
  if a.pattern = b.pattern then
    localeCompare (joinGt b.routeNames) (joinGt a.routeNames)
  else if jsStartsWith a.pattern b.pattern ∧ b.screen ≠ "index" then -1
  else if jsStartsWith b.pattern a.pattern ∧ a.screen ≠ "index" then 1
  else
    let aParts := partsOf a
    let bParts := partsOf b
    let isAStaticRoute := isStaticRoute a
    let isBStaticRoute := isStaticRoute b
    if isAStaticRoute ∧ ¬isBStaticRoute then -1
    else if ¬isAStaticRoute ∧ isBStaticRoute then 1
    else
      let simA := similarToPrevious previousSegments a.expandedRouteNames
      let simB := similarToPrevious previousSegments b.expandedRouteNames
      if (simA > 0 ∨ simB > 0) ∧ simA ≠ simB then (simB : Int) - (simA : Int)
      else
        match comparePartsLoop aParts bParts with
        | some r => r
        | none =>
          let aIsInitial := initialPatterns.contains (joinPaths a.routeNames)
          let bIsInitial := initialPatterns.contains (joinPaths b.routeNames)
          if aIsInitial ∧ ¬bIsInitial then -1
          else if ¬aIsInitial ∧ bIsInitial then 1
          else (bParts.length : Int) - (aParts.length : Int)

/-- The initial-route patterns list computed by `getSortConfigsFn`. -/
def initialPatternsOf (initialRoutes : List InitialRouteConfig) : List String :=
  initialRoutes.map fun route => joinPaths (route.parentScreens ++ [route.initialRouteName])

/-- Insert an element after every element that compares `≤ 0` against it
(stable insertion). -/
def insertByCmp (cmp : RouteConfig → RouteConfig → Int) (x : RouteConfig) :
    List RouteConfig → List RouteConfig
  | [] => [x]
  | y :: ys => if cmp y x ≤ 0 then y :: insertByCmp cmp x ys else x :: y :: ys

/-- Model of `Array.prototype.sort` with the `sortConfigs` comparator: a stable
sort (insertion sort; the ECMAScript sort is required to be stable, and for a
consistent comparator any stable sort produces the same order). -/
def sortWith (cmp : RouteConfig → RouteConfig → Int) (l : List RouteConfig) : List RouteConfig :=
  l.foldl (fun acc x => insertByCmp cmp x acc) []

/-- The `intersects` test of the duplicate-pattern check: the shorter
`routeNames` chain must be a pointwise prefix of the longer. -/
def chainsIntersect (a b : List String) : Bool :=
  if a.length > b.length then
    b.enum.all fun p => a.getD p.1 "" = p.2
  else
    a.enum.all fun p => b.getD p.1 "" = p.2

/-- Property write on the duplicate-scan accumulator object. -/
def setAccRC (m : List (String × RouteConfig)) (k : String) (v : RouteConfig) :
    List (String × RouteConfig) :=
  if (m.find? (fun p => p.1 = k)).isSome then
    m.map (fun p => if p.1 = k then (k, v) else p)
  else m ++ [(k, v)]

/-- The duplicate-pattern scan (`configs.reduce` of the source): walk the
sorted configs keeping, per pattern, the most recent config; when a pattern
repeats, the two chains must intersect (one a pointwise prefix of the other)
or the scan throws. Returns the accumulator on success. -/
def dupScan (acc : List (String × RouteConfig)) :
    List RouteConfig → Except String (List (String × RouteConfig))
  | [] => .ok acc
  | c :: rest =>
    match (acc.find? (fun p => p.1 = c.pattern)).map (·.2) with
    | some prev =>
      if chainsIntersect prev.routeNames c.routeNames then
        dupScan (setAccRC acc c.pattern c) rest
      else
        .error ("Found conflicting screens with the same pattern. The pattern " ++
          c.pattern ++ " resolves to both " ++ joinGt prev.routeNames ++ " and " ++
          joinGt c.routeNames ++ ". Patterns must be unique and cannot resolve to more than one screen.")
    | none => dupScan (setAccRC acc c.pattern c) rest

/-- The duplicate-pattern check as run by `getStateFromPath`. -/
def checkDuplicates (configs : List RouteConfig) : Option String :=
  match dupScan [] configs with
  | .ok _ => none
  | .error e => some e

/-- `ParsedRoute` of the source. -/
structure ParsedRoute where
  name : String
  path : Option String := none
  params : Option Rec := none

/-- The `matchedParams` accumulator of `matchAgainstConfigs`: for each dynamic
pattern segment (spelled with its `:`), the extracted value keyed by the
segment's index in the pattern. -/
abbrev MatchedParams := List (String × List (Nat × String))

/-- Write into the per-segment map of `MatchedParams`
(`Object.assign(acc.matchedParams[p] || {}, { [index]: decoded })`). -/
def setMatchedParam (mp : MatchedParams) (p : String) (index : Nat) (decoded : String) :
    MatchedParams :=
  let inner := ((mp.find? (fun q => q.1 = p)).map (·.2)).getD []
  let inner :=
    if (inner.find? (fun q => q.1 = index)).isSome then
      inner.map (fun q => if q.1 = index then (index, decoded) else q)
    else inner ++ [(index, decoded)]
  if (mp.find? (fun q => q.1 = p)).isSome then
    mp.map (fun q => if q.1 = p then (p, inner) else q)
  else mp ++ [(p, inner)]

/-- One step of the `matchResult` reduction of `matchAgainstConfigs`: a
non-dynamic segment leaves the accumulator alone; a dynamic (`:`) segment
bumps the position, skips a falsy group, and otherwise URL-decodes the group's
value after stripping one trailing slash — a malformed escape makes the
`URIError` escape the whole reduction. -/
def buildStep (caps : List (Option String)) (acc : Except String (Nat × MatchedParams))
    (p : Nat × String) : Except String (Nat × MatchedParams) :=
  match acc with
  | .error e => .error e
  | .ok (pos, mp) =>
    let (index, seg) := p
    if ¬jsStartsWith seg ":" then .ok (pos, mp)
    else
      match matchGroup caps ((pos + 1) * 2) with
      | none => .ok (pos + 1, mp)
      | some g =>
        if g = "" then .ok (pos + 1, mp)
        else
          match decodeURIComponent (dropOneTrailingSlash g) with
          | .error e => .error e
          | .ok decoded => .ok (pos + 1, setMatchedParam mp seg index decoded)

/-- The `matchResult` reduction of `matchAgainstConfigs`: walk the pattern's
segments with their indices, counting dynamic (`:`) segments; the value of the
k-th dynamic segment (0-based) sits in regex group `(k+1)*2`; a falsy group
(absent, or empty because of the forked regexes) is skipped, otherwise the
value is URL-decoded after stripping one trailing slash, and a malformed
escape throws `URIError`. -/
def buildMatchedParams (pattern : String) (caps : List (Option String)) :
    Except String MatchedParams :=
  ((splitOnChar '/' pattern).enum.foldl (buildStep caps) (.ok (0, []))).map (·.2)

/-- `p.replace(/\?$/, '')`. -/
def dropSuffixQuestion (s : String) : String :=
  if jsEndsWith s "?" then s.dropRight 1 else s

/-- The per-route param extraction of `matchAgainstConfigs`: recover each of
the owning config's own dynamic segments from `MatchedParams` at the
segment's index offset by the owning config's position inside the full
pattern, and coerce through the owning config's `parse` map. -/
def routeParamsFor (rc : RouteConfig) (mp : MatchedParams) : Rec :=
  let normalizedPath := String.intercalate "/" ((splitOnChar '/' rc.path).filter (· ≠ ""))
  let patternHead :=
    if normalizedPath = "" then rc.pattern
    else if jsEndsWith rc.pattern normalizedPath then rc.pattern.dropRight normalizedPath.length
    else rc.pattern
  let numInitialSegments := (splitOnChar '/' patternHead).length
  let offset := if numInitialSegments ≠ 0 then numInitialSegments - 1 else 0
  (splitOnChar '/' normalizedPath).enum.foldl
    (fun (acc : Rec) p =>
      let (index, seg) := p
      if ¬jsStartsWith seg ":" then acc
      else
        match (((mp.find? (fun q => q.1 = seg)).map (·.2)).getD []
            |>.find? (fun q => q.1 = index + offset)).map (·.2) with
        | none => acc
        | some value =>
          if value = "" then acc
          else
            let key := dropSuffixQuestion (seg.drop 1)
            let coerced :=
              match rc.parse with
              | some pc =>
                match (pc.find? (fun q => q.1 = key)).map (·.2) with
                | some f => f value
                | none => .vstr value
              | none => .vstr value
            setRec acc key coerced)
    []

/-- Build one `ParsedRoute` of the matched chain: find the flattened config
owning `name` (same screen name and its pattern a string-prefix of the matched
pattern) and attach its extracted params when non-empty. -/
def routeFromName (config : RouteConfig) (configs : List RouteConfig)
    (mp : MatchedParams) (name : String) : ParsedRoute :=
  match configs.find? (fun c => c.screen = name ∧ jsStartsWith config.pattern c.pattern) with
  | none => { name }
  | some rc =>
    let params := routeParamsFor rc mp
    if params.length ≠ 0 then { name, params := some params } else { name }

/-- `matchAgainstConfigs`: try the sorted configs in order; the first whose
compiled regex matches the whole remaining path produces the parsed route
chain; afterwards all extracted params are merged (later routes overriding
earlier ones) and, when non-empty, the merged record is copied onto every
route of the chain. The second component is the source's `remainingPath`
after removing the first occurrence of regex group 1 (kept for fidelity; the
caller never reads it). A malformed escape in a captured dynamic segment
throws `URIError` out of the whole function. -/
def matchAgainstConfigs (remaining : String) (configs : List RouteConfig) :
    Except String (Option (List ParsedRoute) × String) :=
  go configs
where
  go : List RouteConfig → Except String (Option (List ParsedRoute) × String)
    | [] => .ok (none, remaining)
    | config :: rest =>
      match config.regex with
      | none => go rest
      | some segs =>
        match matchSegs segs remaining with
        | none => go rest
        | some caps =>
          match buildMatchedParams config.pattern caps with
          | .error e => .error e
          | .ok mp =>
            let routes := config.routeNames.map (routeFromName config configs mp)
            let mergedParams := routes.foldl (fun acc r => assignRec acc (r.params.getD [])) []
            let routes :=
              if mergedParams.length > 0 then
                routes.map (fun r => { r with params := some mergedParams })
              else routes
            .ok (some routes,
              removeFirstOccurrence remaining ((matchGroup caps 1).getD "undefined"))

mutual

/-- `ResultState` of the source: a navigator state, `{ index?, routes }`. -/
inductive ResultState where
  | mk (index : Option Nat) (routes : List StateRoute)

/-- One route entry of a produced state: name, optional resolved path, optional
params and an optional nested child state. -/
inductive StateRoute where
  | mk (name : String) (path : Option String) (params : Option Rec) (state : Option ResultState)

end

def ResultState.index : ResultState → Option Nat
  | .mk i _ => i

def ResultState.routes : ResultState → List StateRoute
  | .mk _ r => r

def StateRoute.name : StateRoute → String
  | .mk n _ _ _ => n

def StateRoute.path : StateRoute → Option String
  | .mk _ p _ _ => p

def StateRoute.params : StateRoute → Option Rec
  | .mk _ _ ps _ => ps

def StateRoute.state : StateRoute → Option ResultState
  | .mk _ _ _ s => s

/-- `findInitialRoute`: the first initial-route entry whose parent chain equals
the current one decides; the declared initial name is returned unless it is the
current route itself. -/
def findInitialRoute (routeName : String) (parentScreens : List String)
    (initialRoutes : List InitialRouteConfig) : Option String :=
  match initialRoutes.find? (fun c => c.parentScreens = parentScreens) with
  | some c => if routeName ≠ c.initialRouteName then some c.initialRouteName else none
  | none => none

/-- `createStateObject`: the state for one nesting level. A non-deepest level
carries an empty child-state placeholder that the caller then fills; when an
initial route applies, it is inserted before the current route (sharing the
current route's params, per the fork) and `index` is 1. -/
def createStateObject (initialRoute : Option String) (route : ParsedRoute) (isEmpty : Bool) :
    ResultState :=
  if isEmpty then
    match initialRoute with
    | some init =>
      .mk (some 1) [.mk init none route.params none, .mk route.name route.path route.params none]
    | none => .mk none [.mk route.name route.path route.params none]
  else
    match initialRoute with
    | some init =>
      .mk (some 1) [.mk init none route.params none,
        .mk route.name route.path route.params (some (.mk none []))]
    | none => .mk none [.mk route.name route.path route.params (some (.mk none []))]

/-- `nestedState.routes[nestedState.index || nestedState.routes.length - 1].state = child`:
fill the active route's child state. -/
def setRouteStateAt (st child : ResultState) : ResultState :=
  match st with
  | .mk index routes =>
    let idx := match index with
      | some i => if i ≠ 0 then i else routes.length - 1
      | none => routes.length - 1
    .mk index (routes.enum.map fun p =>
      if p.1 = idx then
        match p.2 with
        | .mk n pa ps _ => .mk n pa ps (some child)
      else p.2)

/-- The loop of `createNestedStateObject` fused with the focused-route
post-processing. The source first builds the nested tree, then locates the
focused route — modelled from the spec: follow `index` when present, else the
last route, descending while a child state exists — and mutates it (resolved
path, query/hash params). In this pure form the deepest chain entry, which is
exactly the route the descent reaches, is transformed by `focusedXform` while
an initial-route sibling still receives the untransformed params, matching the
source's aliasing (the sibling is created before the focused route's `params`
field is rebound). -/
def buildStateRec (initialRoutes : List InitialRouteConfig)
    (focusedXform : ParsedRoute → StateRoute × List String)
    (parentScreens : List String) (route : ParsedRoute) (rest : List ParsedRoute) :
    ResultState × List String :=
  let initialRoute := findInitialRoute route.name parentScreens initialRoutes
  match rest with
  | [] =>
    let (focused, warns) := focusedXform route
    match initialRoute with
    | some init => (.mk (some 1) [.mk init none route.params none, focused], warns)
    | none => (.mk none [focused], warns)
  | next :: more =>
    let st := createStateObject initialRoute route false
    let (child, warns) :=
      buildStateRec initialRoutes focusedXform (parentScreens ++ [route.name]) next more
    (setRouteStateAt st child, warns)

/-- `findParseConfigForRoute`: the `parse` map of the first flattened config
whose chain ends in the given route name. -/
def findParseConfigForRoute (routeName : String) (flatConfig : List RouteConfig) :
    Option ParseConfig :=
  match flatConfig.find? (fun c => c.routeNames.getLastD "" = routeName) with
  | some c => c.parse
  | none => none

/-- `NODE_ENV` model: not `production` (development default), so the
path/query-conflict diagnostic is emitted. -/
def nodeEnvIsProduction : Bool := false

/-- The diagnostic emitted for a name bound both by the path and the query. -/
def paramConflictWarning (routeName paramName : String) : String :=
  "Route /" ++ routeName ++ " with param " ++ paramName ++
    " was specified both in the path and as a param, removing from path"

/-- `mutateRouteParams` of the forks module, with
`allowUrlParamNormalization = false` (the default at the only call site): query
entries are added to a fresh copy of the route params; a name whose existing
value is truthy is kept (path wins) and a diagnostic is recorded; an empty
result deletes the params. Returns the new params and the diagnostics. -/
def mutateRouteParams (routeName : String) (routeParams : Option Rec) (params : Rec)
    (allowUrlParamNormalization : Bool := false) : Option Rec × List String :=
  let start : Rec := assignRec [] (routeParams.getD [])
  let step := params.foldl
    (fun (acc : Rec × List String) p =>
      if truthyVal (lookupRec acc.1 p.1) then
        if allowUrlParamNormalization then (setRec acc.1 p.1 p.2, acc.2)
        else
          (acc.1, if ¬nodeEnvIsProduction then acc.2 ++ [paramConflictWarning routeName p.1] else acc.2)
      else (setRec acc.1 p.1 p.2, acc.2))
    (start, [])
  (if step.1.length = 0 then none else some step.1, step.2)

/-- `parseQueryParams` of the forks module. The `searchParams` of
`new URL(path, 'https://phony.example')` are modelled by parsing the query
substring of `path` directly (fragment split first, then query), which agrees
with the URL constructor on every parseable input. A non-empty hash is stored
first under the key `#`; each query key gets all its values (coerced through a
matching `parse` entry), a single value staying scalar; an empty record is
`undefined`. -/
def parseQueryParams (path : String) (parseConfig : Option ParseConfig) (hash : String) :
    Option Rec :=
  let beforeHash := (splitAtFirst path '#').1
  let query := match splitAtFirst beforeHash '?' with
    | (_, some q) => q
    | (_, none) => ""
  let pairs := parseSearchPairs query
  let start : Rec := if hash ≠ "" then [("#", .vstr hash)] else []
  let params := pairs.foldl
    (fun (acc : Rec) p =>
      let name := p.1
      let raw := pairs.filterMap (fun q => if q.1 = name then some q.2 else none)
      let values : List Value :=
        match parseConfig with
        | some pc =>
          match (pc.find? (fun q => q.1 = name)).map (·.2) with
          | some f => raw.map f
          | none => raw.map .vstr
        | none => raw.map .vstr
      let v : Value := if values.length = 1 then values.headD (.vstr "") else .varr values
      setRec acc name v)
    start
  if params.length ≠ 0 then some params else none

/-- `createNestedStateObject`: build the nested state for a non-empty parsed
route chain, resolve the focused (deepest) route's path and attach query/hash
params to it, collecting any conflict diagnostics. -/
def createNestedStateObject (path : String) (first : ParsedRoute) (rest : List ParsedRoute)
    (initialRoutes : List InitialRouteConfig) (flatConfig : Option (List RouteConfig))
    (hash : String) : ResultState × List String :=
  let focusedName := (rest.getLastD first).name
  let parseCfg :=
    match flatConfig with
    | some fc => findParseConfigForRoute focusedName fc
    | none => none
  let xform : ParsedRoute → StateRoute × List String := fun route =>
    match parseQueryParams path parseCfg hash with
    | some ps =>
      let (params', warns) := mutateRouteParams route.name route.params ps
      (.mk route.name (some path) params' none, warns)
    | none => (.mk route.name (some path) route.params none, [])
  buildStateRec initialRoutes xform [] first rest

/-- `process.env.EXPO_BASE_URL` model: unset. -/
def envBaseUrl : Option String := none

/-- `NODE_ENV !== 'development'` model: false (development default), so
`stripBaseUrl` is the identity. -/
def nodeEnvIsDevelopment : Bool := true

/-- `stripBaseUrl`: outside development, collapse leading slashes to one and
remove an optionally-slash-led occurrence of the base URL at the start. In the
modelled environment (development, no base URL) it returns the path unchanged. -/
def stripBaseUrl (path : String) (baseUrl : Option String) : String :=
  if ¬nodeEnvIsDevelopment then
    match baseUrl with
    | some b =>
      let p := if jsStartsWith path "/" then "/" ++ dropLeadingSlashes path else path
      if jsStartsWith p ("/" ++ b) then p.drop (b.length + 1)
      else if jsStartsWith p b then p.drop b.length
      else p
    | none => path
  else path

/-- The result of `getUrlWithReactNavigationConcessions`. -/
structure ConcessionsResult where
  nonstandardPathname : String
  url : Option URLParts

/-- `getUrlWithReactNavigationConcessions`: parse against the phony origin; an
unparseable input produces an empty pathname and no URL; otherwise the
pathname, base-URL-stripped, loses every leading and trailing slash and gains
exactly one trailing slash. -/
def getUrlWithReactNavigationConcessions (path : String) (baseUrl : Option String) :
    ConcessionsResult :=
  match parseURL path with
  | none => { nonstandardPathname := "", url := none }
  | some u =>
    { nonstandardPathname :=
        dropLeadingSlashes (dropTrailingSlashes (stripBaseUrl u.pathname baseUrl)) ++ "/"
      url := some u }

/-- The helper bundle of `getExpoHelpers`. -/
structure ExpoHelpers where
  cleanPath : String
  hash : String
  nonstandardPathname : String
  url : URLParts

/-- `getExpoHelpers`: `none` when the input is not a parseable URL; otherwise
the clean path (group segments stripped, base URL stripped, query re-attached,
leading slash dropped when the input had none), the fragment (already without
`#` in the `URLParts` model) and the nonstandard pathname. -/
def getExpoHelpers (path : String) (baseUrl : Option String) : Option ExpoHelpers :=
  let e := getUrlWithReactNavigationConcessions path baseUrl
  match e.url with
  | none => none
  | some u =>
    let cleanPath0 := stripBaseUrl (stripGroupSegmentsFromPath u.pathname) baseUrl ++ u.search
    let cleanPath := if ¬jsStartsWith path "/" then cleanPath0.drop 1 else cleanPath0
    some { cleanPath, hash := u.hash, nonstandardPathname := e.nonstandardPathname, url := u }

/-- The options object of `getStateFromPath` (`screens` is optional at runtime,
which the no-configuration branch relies on). -/
structure Options where
  path : Option String := none
  initialRouteName : Option String := none
  screens : Option ScreensMap := none

/-- The base-prefix step of `getStateFromPath`: a truthy `options.path` prefix
(leading slash removed, trailing slash ensured) must lead the remaining path,
which it is then removed from; otherwise resolution yields no match. -/
def applyPrefixToRemaining (prefixOpt : Option String) (remaining : String) : Option String :=
  match prefixOpt with
  | some p =>
    let p := dropOneLeadingSlash p
    if p ≠ "" then
      let np := if jsEndsWith p "/" then p else p ++ "/"
      if jsStartsWith remaining np then some (remaining.drop np.length) else none
    else some remaining
  | none => some remaining

/-- The initial-route list seeded from `options.initialRouteName` (root level). -/
def initialRoutesSeed (options : Option Options) : List InitialRouteConfig :=
  match options with
  | some o =>
    match o.initialRouteName with
    | some i => [{ initialRouteName := i, parentScreens := [] }]
    | none => []
  | none => []

/-- The `remaining` path computed by `getStateFromPath` before the prefix step:
collapse duplicate slashes, drop one leading slash, cut at a `?`, ensure one
trailing slash. -/
def remainingOf (nonstandardPathname : String) : String :=
  let r := dropFromQuestionMark (dropOneLeadingSlash (collapseSlashes nonstandardPathname))
  if jsEndsWith r "/" then r else r ++ "/"

/-- URL-decode a list of path segments in order; the first malformed escape
throws (as the `Array.map` over `decodeURIComponent` does). -/
def decodeSegments : List String → Except String (List String)
  | [] => .ok []
  | s :: ss =>
    match decodeURIComponent s with
    | .error e => .error e
    | .ok n =>
      match decodeSegments ss with
      | .error e => .error e
      | .ok ns => .ok (n :: ns)

/-- The no-configuration branch of `getStateFromPath`: the path's segments,
URL-decoded, become the route chain; a malformed escape in any segment throws
`URIError`. -/
def resolveNoConfig (path remaining : String) (initialRoutes : List InitialRouteConfig)
    (hash : String) : Except String (Option ResultState × List String) :=
  match decodeSegments ((splitOnChar '/' remaining).filter (· ≠ "")) with
  | .error e => .error e
  | .ok names =>
    match names.map (fun name => ({ name } : ParsedRoute)) with
    | [] => .ok (none, [])
    | r :: rs =>
      let (st, ws) := createNestedStateObject path r rs initialRoutes none hash
      .ok (some st, ws)

/-- The root-path predicate of `getStateFromPath`: an own empty path, and for
every name of the chain the first config (in specificity order) whose leaf
screen name equals it has a falsy path. -/
def rootPathPred (configs : List RouteConfig) (config : RouteConfig) : Bool :=
  config.path = "" ∧
    config.routeNames.all (fun name =>
      ¬truthyStr ((configs.find? (fun c => c.screen = name)).map (·.path)))

/-- The `remaining === '/'` branch of `getStateFromPath`. -/
def resolveRoot (cleanPath : String) (configs : List RouteConfig)
    (initialRoutes : List InitialRouteConfig) (hash : String) :
    Option ResultState × List String :=
  match configs.find? (rootPathPred configs) with
  | some m =>
    match m.routeNames.map (fun name => ({ name } : ParsedRoute)) with
    | [] => (none, [])
    | r :: rs =>
      let (st, ws) := createNestedStateObject cleanPath r rs initialRoutes (some configs) hash
      (some st, ws)
  | none => (none, [])

/-- The regex-match branch of `getStateFromPath`; a `URIError` thrown while
decoding a captured dynamic segment propagates. -/
def resolveMatched (cleanPath remaining : String) (configs : List RouteConfig)
    (initialRoutes : List InitialRouteConfig) (hash : String) :
    Except String (Option ResultState × List String) :=
  match matchAgainstConfigs remaining configs with
  | .error e => .error e
  | .ok (some routes, _) =>
    match routes with
    | [] => .ok (none, [])
    | r :: rs =>
      let (st, ws) := createNestedStateObject cleanPath r rs initialRoutes (some configs) hash
      .ok (some st, ws)
  | .ok (none, _) => .ok (none, [])

/-- `getStateFromPath`. The returned value models the source's behaviour as
`Except`: `.error` is a thrown error (a configuration error, or the `URIError`
a malformed percent-escape raises while decoding), `.ok (none, ws)` is the
`undefined` result, `.ok (some st, ws)` a produced state; `ws` collects the
non-fatal diagnostics printed with `console.warn`. `previousSegments` is the
router-store context (`this?.routeInfo?.segments ?? []`) used only by the
comparator. -/
def getStateFromPath (previousSegments : List String) (path : String)
    (options : Option Options) : Except String (Option ResultState × List String) :=
  match getExpoHelpers path envBaseUrl with
  | none => .ok (none, [])
  | some helpers =>
    let initialRoutes := initialRoutesSeed options
    match applyPrefixToRemaining (options.bind (·.path)) (remainingOf helpers.nonstandardPathname) with
    | none => .ok (none, [])
    | some remaining =>
      match options.bind (·.screens) with
      | none => resolveNoConfig path remaining initialRoutes helpers.hash
      | some screens =>
        match createAllConfigs screens initialRoutes with
        | .error e => .error e
        | .ok (configsRaw, initialRoutes) =>
          let configs :=
            sortWith (sortConfigs (initialPatternsOf initialRoutes) previousSegments) configsRaw
          match checkDuplicates configs with
          | some e => .error e
          | none =>
            if remaining = "/" then
              .ok (resolveRoot helpers.cleanPath configs initialRoutes helpers.hash)
            else
              resolveMatched helpers.cleanPath remaining configs initialRoutes helpers.hash

/-- The flattened (unsorted) configs of an options value, together with the
full initial-route list; configuration-shape errors surface as `.error`. -/
def flattenStage (options : Option Options) :
    Except String (List RouteConfig × List InitialRouteConfig) :=
  match options.bind (·.screens) with
  | none => .ok ([], initialRoutesSeed options)
  | some screens => createAllConfigs screens (initialRoutesSeed options)

/-- The sorted configs as `getStateFromPath` computes them (empty when the
options carry no screens or flattening fails). -/
def sortedConfigsOf (previousSegments : List String) (options : Option Options) :
    List RouteConfig :=
  match flattenStage options with
  | .error _ => []
  | .ok (cs, inits) => sortWith (sortConfigs (initialPatternsOf inits) previousSegments) cs

/-- The configuration-time error of an options value: a flattening error or a
duplicate-pattern conflict, `none` for a valid configuration. -/
def configErrorOf (previousSegments : List String) (options : Option Options) : Option String :=
  match options.bind (·.screens) with
  | none => none
  | some screens =>
    match createAllConfigs screens (initialRoutesSeed options) with
    | .error e => some e
    | .ok (cs, inits) =>
      checkDuplicates (sortWith (sortConfigs (initialPatternsOf inits) previousSegments) cs)

mutual

/-- The focused-route spine of a produced state — modelled from the spec: at
each level take the route at `index` (or the last one) and descend while a
child state exists. The list collects the visited routes; the last entry is
the focused route (the route `findFocusedRoute` returns). -/
def focusedSpine : ResultState → List StateRoute
  | .mk index routes => spineFromRoutes (index.getD (routes.length - 1)) routes

/-- Walk to the active position of a route list and continue the spine there. -/
def spineFromRoutes : Nat → List StateRoute → List StateRoute
  | _, [] => []
  | 0, r :: _ => r :: spineBelow r
  | n + 1, _ :: rest => spineFromRoutes n rest

/-- The spine below one route: empty when it has no child state. -/
def spineBelow : StateRoute → List StateRoute
  | .mk _ _ _ none => []
  | .mk _ _ _ (some sub) => focusedSpine sub

end

/-- The names along the focused spine: the active route chain of a state. -/
def activeChainNames (st : ResultState) : List String :=
  (focusedSpine st).map StateRoute.name

/-- A placeholder route for total list access. -/
def dfltRoute : StateRoute := .mk "" none none none

/-- The options of the spec's end-to-end example:
`{ screens: { Chat: { path: 'chat/:author/:id', parse: { id: Number } } } }`. -/
def optsChatParse : Options :=
  { screens := some [("Chat",
      PathConfig.obj (some "chat/:author/:id") none (some [("id", jsNumber)]) none none)] }

/-- The state `/chat/jane/42` resolves to under `optsChatParse`. -/
def stateChatParse : ResultState :=
  .mk none [.mk "Chat" (some "/chat/jane/42")
    (some [("author", .vstr "jane"), ("id", .vnum 42)]) none]

/-- The same Chat screen without a `parse` map (the query/path-conflict
scenario). -/
def optsChatPlain : Options :=
  { screens := some [("Chat",
      PathConfig.obj (some "chat/:author/:id") none none none none)] }

/-- The state `/chat/jane/42?id=99` resolves to under `optsChatPlain`. -/
def stateChatPlain : ResultState :=
  .mk none [.mk "Chat" (some "/chat/jane/42?id=99")
    (some [("author", .vstr "jane"), ("id", .vstr "42")]) none]

/-- Sibling screens `users/:id` and `users/settings`. -/
def optsUsers : Options :=
  { screens := some [("UserDetail", PathConfig.str "users/:id"),
      ("UserSettings", PathConfig.str "users/settings")] }

/-- The flattened config of a top-level screen declared as the bare string
`users`. -/
def cfgUsersLeaf : RouteConfig :=
  createConfigItem "users" ["users"] "users" "users" none false

/-- The flattened config of a top-level screen declared as the bare string
`users/:id`. -/
def cfgUsersDyn : RouteConfig :=
  createConfigItem "other" ["other"] "users/:id" "users/:id" none false

/-- A configuration on which the root path resolves through an ancestor with a
non-empty path: the root-branch lookup finds the empty-path `B` of the `Q`
chain when checking the name `B` of the `P > B > A` chain. -/
def optsRootLookup : Options :=
  { screens := some
      [("Q", PathConfig.obj (some "q") none none none
        (some [("B", PathConfig.obj (some "") none none none none)])),
       ("P", PathConfig.obj none none none none
        (some [("B", PathConfig.obj (some "b") none none none
          (some [("A", PathConfig.obj (some "") none none none none)]))]))] }

/-- The state `/` resolves to under `optsRootLookup`. -/
def stateRootLookup : ResultState :=
  .mk none [.mk "P" none none (some (.mk none
    [.mk "B" none none (some (.mk none
      [.mk "A" (some "/") none none]))]))]

/-- Two sibling wildcard screens, one of them the reserved `*not-found`. -/
def optsWildcards : Options :=
  { screens := some [("*not", PathConfig.str "*not"),
      ("*not-found", PathConfig.str "*not-found")] }

/-- The state `/x` resolves to under `optsWildcards`. -/
def stateWildcards : ResultState :=
  .mk none [.mk "*not-found" (some "/x") none none]

/-- The flattened config of a top-level screen declared as the bare string
`users/settings`. -/
def cfgUsersSettings : RouteConfig :=
  createConfigItem "UserSettings" ["UserSettings"] "users/settings" "users/settings" none false

/-- A single screen with an explicitly empty path: the root path resolves to it. -/
def optsHome : Options :=
  { screens := some [("Home", PathConfig.obj (some "") none none none none)] }

/-- Two sibling screens sharing the pattern `p` with unrelated chains (a
duplicate-pattern conflict). -/
def optsDupBad : Options :=
  { screens := some [("A", PathConfig.str "p"), ("B", PathConfig.str "p")] }

/-- The flattened config of the conflicting screen `A`. -/
def cfgDupA : RouteConfig := createConfigItem "A" ["A"] "p" "p" none false

/-- The flattened config of the conflicting screen `B`. -/
def cfgDupB : RouteConfig := createConfigItem "B" ["B"] "p" "p" none false

/-- A two-level chain `P > C` with one dynamic segment per level. -/
def optsCascade : Options :=
  { screens := some [("P", PathConfig.obj (some "p/:a") none none none
      (some [("C", PathConfig.str ":b")]))] }

/-- The parsed chain `/p/1/2` produces under `optsCascade`: after cascading,
both routes carry the merged `{ a, b }` params. -/
def routesCascade : List ParsedRoute :=
  [⟨"P", none, some [("a", .vstr "1"), ("b", .vstr "2")]⟩,
   ⟨"C", none, some [("a", .vstr "1"), ("b", .vstr "2")]⟩]

/-- A single dynamic top-level screen: the path `/%` reaches its `:a` capture
with a malformed percent-escape. -/
def optsUriDyn : Options := { screens := some [("X", PathConfig.str ":a")] }

/-- A parent and child flattening to the same pattern `p/:x` with chains
`[A]` and `[A, B]`, one a prefix of the other. -/
def optsDupUri : Options :=
  { screens := some [("A", PathConfig.obj (some "p/:x") none none none
      (some [("B", PathConfig.str "")]))] }

/-- The flattened config of the child `B` of `optsDupUri`. -/
def cfgDupUriB : RouteConfig := createConfigItem "B" ["A", "B"] "p/:x" "" none false

/-- The flattened config of the parent `A` of `optsDupUri`. -/
def cfgDupUriA : RouteConfig := createConfigItem "A" ["A"] "p/:x" "p/:x" none true

/-- C1: for the configuration
`{ screens: { Chat: { path: 'chat/:author/:id', parse: { id: Number } } } }`
and the input path `/chat/jane/42`, `getStateFromPath` returns (without error
or diagnostics) a state whose focused route is
`{ name: 'Chat', params: { author: 'jane', id: 42 }, path: '/chat/jane/42' }`:
the `:author` capture is the string `jane`, the `:id` capture is coerced by
`Number` to the number 42, and the focused route's `path` is the clean input
path. -/
theorem getStateFromPath_chat_example :
    getStateFromPath [] "/chat/jane/42" (some optsChatParse) = .ok (some stateChatParse, []) ∧
    focusedSpine stateChatParse =
      [.mk "Chat" (some "/chat/jane/42")
        (some [("author", .vstr "jane"), ("id", .vnum 42)]) none] :=
  ⟨rfl, rfl⟩

/-- C7: under default settings, for the pattern `chat/:author/:id` (no `parse`
map) and the input `/chat/jane/42?id=99`, resolution succeeds, the focused
route keeps the path-derived `id` value `'42'` (the query value `99` is
dropped) and exactly one non-fatal diagnostic is emitted. -/
theorem query_path_conflict_example :
    getStateFromPath [] "/chat/jane/42?id=99" (some optsChatPlain) =
      .ok (some stateChatPlain, [paramConflictWarning "Chat" "id"]) ∧
    lookupRec ((((focusedSpine stateChatPlain).getLastD dfltRoute).params).getD []) "id" =
      some (.vstr "42") :=
  ⟨rfl, rfl⟩

/-- C4: the `exact: true`-without-`path` guard of `createNormalizedConfigs` is
unreachable (it sits inside the `typeof config.path === 'string'` branch), so
flattening the configuration `{ screens: { Foo: { exact: true } } }` does not
throw: it silently produces no flattened route for `Foo`, contradicting the
documented fatal error. -/
theorem exact_without_path_evaluation :
    createAllConfigs [("Foo", PathConfig.obj none (some true) none none none)] [] =
      .ok ([], []) :=
  rfl

/-- C2 counterexample: the comparator does not order every static route before
every non-static route. Flattening the sibling screens `users: 'users'` and
`other: 'users/:id'` yields a static leaf `users` and a dynamic route
`users/:id`; because `users/:id` starts with the string `users`, the prefix
rule fires before the static/dynamic stage and ranks the dynamic route
strictly first. -/
theorem staticRoute_priority_counterexample :
    createAllConfigs [("users", PathConfig.str "users"), ("other", PathConfig.str "users/:id")]
      [] = .ok ([cfgUsersLeaf, cfgUsersDyn], []) ∧
    isStaticRoute cfgUsersLeaf = true ∧
    isStaticRoute cfgUsersDyn = false ∧
    sortConfigs [] [] cfgUsersDyn cfgUsersLeaf = -1 :=
  ⟨rfl, rfl, rfl, rfl⟩

/-- C3 counterexample: resolving `/` can return a state although an ancestor
on the resolved chain has a non-empty own path. Under `optsRootLookup` the
root path resolves to the chain `P > B > A`, yet the chain's `B` is the
flattened route with `routeNames = [P, B]` whose own path is `'b'` — the
root-branch check looked up the unrelated empty-path `B` of the `Q` chain by
screen name. -/
theorem rootPath_empty_chain_counterexample :
    getStateFromPath [] "/" (some optsRootLookup) = .ok (some stateRootLookup, []) ∧
    activeChainNames stateRootLookup = ["P", "B", "A"] ∧
    ((sortedConfigsOf [] (some optsRootLookup)).find?
      (fun c => c.routeNames = ["P", "B"])).map (·.path) = some "b" :=
  ⟨rfl, rfl, rfl⟩

/-- C6 counterexample: a route whose pattern uses `*not-found` can outrank a
different wildcard route eligible for the same path. With sibling wildcard
screens `*not` and `*not-found`, the pattern `*not-found` starts with the
string `*not`, so the prefix rule ranks it first; `/x` then resolves to the
`*not-found` route even though the `*not` wildcard also matches the remaining
path. -/
theorem notFound_wildcard_counterexample :
    getStateFromPath [] "/x" (some optsWildcards) = .ok (some stateWildcards, []) ∧
    ((sortedConfigsOf [] (some optsWildcards)).head?).map (·.screen) = some "*not-found" ∧
    ((sortedConfigsOf [] (some optsWildcards)).find? (fun c => c.screen = "*not")).map
      (fun c => (matchSegs (c.regex.getD []) "x/").isSome) = some true :=
  ⟨rfl, rfl, rfl⟩


/-! ### Supporting lemmas about the params records and the cascade -/

lemma setRec_ne_nil (m : Rec) (k : String) (v : Value) : setRec m k v ≠ [] := by
  cases m with
  | nil => simp [setRec]
  | cons p rest =>
    rw [setRec]
    split <;> simp

lemma assignRec_ne_nil_of_snd (acc : Rec) (b : Rec) (h : b ≠ []) : assignRec acc b ≠ [] := by
  induction b generalizing acc with
  | nil => exact absurd rfl h
  | cons p rest ih =>
    rw [assignRec]
    simp only [List.foldl_cons]
    cases rest with
    | nil => simpa [assignRec] using setRec_ne_nil acc p.1 p.2
    | cons q qs => exact ih (setRec acc p.1 p.2) (by simp)

lemma assignRec_ne_nil_of_fst (acc : Rec) (b : Rec) (h : acc ≠ []) : assignRec acc b ≠ [] := by
  induction b generalizing acc with
  | nil => simpa [assignRec] using h
  | cons p rest ih =>
    rw [assignRec]
    simp only [List.foldl_cons]
    exact ih (setRec acc p.1 p.2) (setRec_ne_nil acc p.1 p.2)

lemma foldl_assign_nonempty (l : List ParsedRoute) (acc : Rec) (h : acc ≠ []) :
    l.foldl (fun a r => assignRec a (r.params.getD [])) acc ≠ [] := by
  induction l generalizing acc with
  | nil => simpa using h
  | cons r rest ih =>
    simp only [List.foldl_cons]
    exact ih _ (assignRec_ne_nil_of_fst _ _ h)

lemma foldl_assign_nil (l : List ParsedRoute)
    (h : l.foldl (fun a r => assignRec a (r.params.getD [])) [] = []) :
    ∀ r ∈ l, r.params.getD [] = [] := by
  induction l with
  | nil => simp
  | cons r rest ih =>
    simp only [List.foldl_cons] at h
    by_cases hx : r.params.getD [] = []
    · have h' : rest.foldl (fun a r => assignRec a (r.params.getD [])) [] = [] := by
        rw [hx] at h
        simpa [assignRec] using h
      intro r' hr'
      rw [List.mem_cons] at hr'
      rcases hr' with rfl | hr'
      · exact hx
      · exact ih h' r' hr'
    · exact absurd h (foldl_assign_nonempty rest _ (assignRec_ne_nil_of_snd _ _ hx))

lemma routeFromName_params (config : RouteConfig) (configs : List RouteConfig)
    (mp : MatchedParams) (name : String) :
    (routeFromName config configs mp name).params = none ∨
      ∃ m, (routeFromName config configs mp name).params = some m ∧ m ≠ [] := by
  rw [routeFromName]
  cases h : configs.find? (fun c => c.screen = name ∧ jsStartsWith config.pattern c.pattern) with
  | none => left; rfl
  | some rc =>
    by_cases h2 : (routeParamsFor rc mp).length ≠ 0
    · right
      exact ⟨routeParamsFor rc mp, by simp [h2], by simpa using h2⟩
    · left
      simp [h2]

lemma matchGo_params_eq (remaining : String) (configs : List RouteConfig) :
    ∀ (l : List RouteConfig) (routes : List ParsedRoute) (rp : String),
      matchAgainstConfigs.go remaining configs l = .ok (some routes, rp) →
      ∀ r1 ∈ routes, ∀ r2 ∈ routes, r1.params = r2.params := by
  intro l
  induction l with
  | nil =>
    intro routes rp h
    simp [matchAgainstConfigs.go] at h
  | cons config rest ih =>
    intro routes rp h
    rw [matchAgainstConfigs.go] at h
    split at h
    · exact ih routes rp h
    · split at h
      · exact ih routes rp h
      · split at h
        · exact absurd h (by simp)
        · rename_i segs hr caps hm mp hmp
          simp only [Except.ok.injEq, Prod.mk.injEq, Option.some.injEq] at h
          obtain ⟨h1, h2⟩ := h
          subst h1
          by_cases hmerged :
              ((config.routeNames.map (routeFromName config configs mp)).foldl
                (fun a r => assignRec a (r.params.getD [])) []).length > 0
          · intro r1 hr1 r2 hr2
            rw [if_pos hmerged] at hr1 hr2
            rw [List.mem_map] at hr1 hr2
            obtain ⟨o1, _, ho1⟩ := hr1
            obtain ⟨o2, _, ho2⟩ := hr2
            rw [← ho1, ← ho2]
          · intro r1 hr1 r2 hr2
            rw [if_neg hmerged] at hr1 hr2
            have hnil : ((config.routeNames.map (routeFromName config configs mp)).foldl
              (fun a r => assignRec a (r.params.getD [])) []) = [] := by
              rcases List.eq_nil_or_concat ((config.routeNames.map
                  (routeFromName config configs mp)).foldl
                (fun a r => assignRec a (r.params.getD [])) []) with hh | ⟨_, _, hh⟩
              · exact hh
              · exfalso
                apply hmerged
                rw [hh]
                simp
            have hall := foldl_assign_nil _ hnil
            have hnone : ∀ r ∈ (config.routeNames.map (routeFromName config configs mp)),
                r.params = none := by
              intro r hrm
              have hrm2 := hrm
              rw [List.mem_map] at hrm2
              obtain ⟨nm, _, hnm⟩ := hrm2
              rcases routeFromName_params config configs mp nm with
                hc | ⟨m, hc, hmne⟩
              · rw [← hnm]; exact hc
              · exfalso
                have := hall r hrm
                rw [← hnm, hc] at this
                simp at this
                exact hmne this
            rw [hnone r1 hr1, hnone r2 hr2]

lemma lookupRec_cons (p : String × Value) (rest : Rec) (k : String) :
    lookupRec (p :: rest) k = if p.1 = k then some p.2 else lookupRec rest k := by
  by_cases h : p.1 = k
  · simp [lookupRec, List.find?_cons_of_pos, h]
  · simp only [lookupRec, if_neg h]
    rw [List.find?_cons_of_neg _ (by simp [h])]

lemma lookupRec_map_ne (m : Rec) (k2 : String) (v2 : Value) (k : String) (hk : k ≠ k2) :
    lookupRec (m.map (fun p => if p.1 = k2 then (k2, v2) else p)) k = lookupRec m k := by
  induction m with
  | nil => rfl
  | cons p rest ih =>
    by_cases hp : p.1 = k2
    · simp only [List.map_cons, if_pos hp]
      rw [lookupRec_cons, lookupRec_cons]
      rw [if_neg (fun hh => hk hh.symm), if_neg (by rw [hp]; exact fun hh => hk hh.symm)]
      exact ih
    · simp only [List.map_cons, if_neg hp]
      rw [lookupRec_cons, lookupRec_cons]
      by_cases hpk : p.1 = k
      · rw [if_pos hpk, if_pos hpk]
      · rw [if_neg hpk, if_neg hpk]
        exact ih

lemma setRec_cons_ne (p : String × Value) (rest : Rec) (k2 : String) (v2 : Value)
    (hp : p.1 ≠ k2) :
    setRec (p :: rest) k2 v2 = p :: setRec rest k2 v2 := by
  rw [setRec, setRec]
  have hfind : (p :: rest).find? (fun q => q.1 = k2) = rest.find? (fun q => q.1 = k2) := by
    rw [List.find?_cons_of_neg _ (by simp [hp])]
  rw [hfind]
  by_cases h : (rest.find? (fun q => q.1 = k2)).isSome
  · rw [if_pos h, if_pos h]
    simp [if_neg hp]
  · rw [if_neg h, if_neg h]
    rfl

lemma lookupRec_setRec (m : Rec) (k2 : String) (v2 : Value) (k : String) :
    lookupRec (setRec m k2 v2) k = if k = k2 then some v2 else lookupRec m k := by
  induction m with
  | nil =>
    show lookupRec [(k2, v2)] k = _
    rw [lookupRec_cons]
    by_cases hk : k = k2
    · rw [if_pos (hk.symm), if_pos hk]
    · rw [if_neg (fun hh => hk hh.symm), if_neg hk]
  | cons p rest ih =>
    by_cases hp : p.1 = k2
    · rw [setRec, if_pos (by rw [List.find?_cons_of_pos _ (by simp [hp])]; rfl)]
      simp only [List.map_cons, if_pos hp]
      rw [lookupRec_cons]
      by_cases hk : k = k2
      · rw [if_pos (by simp [hk]), if_pos hk]
      · rw [if_neg (by simp; exact fun hh => hk hh.symm), if_neg hk]
        rw [lookupRec_map_ne rest k2 v2 k hk]
        rw [lookupRec_cons, if_neg (by rw [hp]; exact fun hh => hk hh.symm)]
    · rw [setRec_cons_ne p rest k2 v2 hp]
      rw [lookupRec_cons, ih, lookupRec_cons]
      by_cases hpk : p.1 = k
      · have hkk2 : ¬(k = k2) := by
          rw [← hpk]
          exact fun hh => hp hh
        rw [if_pos hpk, if_neg hkk2, if_pos hpk]
      · rw [if_neg hpk, if_neg hpk]

lemma lookupRec_assignRec (m1 m2 : Rec) (k : String) (h : (m2.map Prod.fst).Nodup) :
    lookupRec (assignRec m1 m2) k =
      match lookupRec m2 k with
      | some v => some v
      | none => lookupRec m1 k := by
  induction m2 generalizing m1 with
  | nil => simp [assignRec, lookupRec]
  | cons p rest ih =>
    have hstep : assignRec m1 (p :: rest) = assignRec (setRec m1 p.1 p.2) rest := by
      simp [assignRec]
    rw [hstep]
    rw [List.map_cons, List.nodup_cons] at h
    rw [ih _ h.2]
    rw [lookupRec_cons]
    by_cases hk : p.1 = k
    · have hfind : rest.find? (fun q => q.1 = k) = none := by
        apply List.find?_eq_none.mpr
        intro x hx
        simp only [decide_eq_true_eq]
        intro hxk
        exact h.1 (by rw [← hk] at hxk; rw [← hxk]; exact List.mem_map_of_mem Prod.fst hx)
      have hrest : lookupRec rest k = none := by
        rw [lookupRec, hfind]
        rfl
      rw [hrest, if_pos hk]
      rw [lookupRec_setRec, if_pos hk.symm]
    · rw [if_neg hk]
      cases hr : lookupRec rest k
      · rw [lookupRec_setRec, if_neg (fun hh => hk hh.symm)]
      · rfl

/-! ### Supporting lemmas about the duplicate-pattern scan -/

lemma mem_setAccRC (m : List (String × RouteConfig)) (k : String) (v : RouteConfig)
    (q : String × RouteConfig) (h : q ∈ setAccRC m k v) : q.1 = k ∨ q ∈ m := by
  rw [setAccRC] at h
  split at h
  · rw [List.mem_map] at h
    obtain ⟨orig, horig, heq⟩ := h
    by_cases ho : orig.1 = k
    · left
      rw [if_pos ho] at heq
      rw [← heq]
    · right
      rw [if_neg ho] at heq
      rw [← heq]
      exact horig
  · rw [List.mem_append] at h
    rcases h with h | h
    · right; exact h
    · left
      simp at h
      rw [h]

lemma setAccRC_fresh (m : List (String × RouteConfig)) (k : String) (v : RouteConfig)
    (h : m.find? (fun p => p.1 = k) = none) :
    setAccRC m k v = m ++ [(k, v)] := by
  rw [setAccRC, if_neg (by rw [h]; simp)]

lemma dupScan_cons (acc : List (String × RouteConfig)) (c : RouteConfig)
    (rest : List RouteConfig) :
    dupScan acc (c :: rest) =
      match (acc.find? (fun p => p.1 = c.pattern)).map (·.2) with
      | some prev =>
        if chainsIntersect prev.routeNames c.routeNames then
          dupScan (setAccRC acc c.pattern c) rest
        else
          .error ("Found conflicting screens with the same pattern. The pattern " ++
            c.pattern ++ " resolves to both " ++ joinGt prev.routeNames ++ " and " ++
            joinGt c.routeNames ++ ". Patterns must be unique and cannot resolve to more than one screen.")
      | none => dupScan (setAccRC acc c.pattern c) rest := rfl

lemma dupScan_append (l1 : List RouteConfig) :
    ∀ (acc : List (String × RouteConfig)) (l2 : List RouteConfig),
    dupScan acc (l1 ++ l2) =
      match dupScan acc l1 with
      | .error e => .error e
      | .ok acc' => dupScan acc' l2 := by
  induction l1 with
  | nil =>
    intro acc l2
    simp [dupScan]
  | cons c rest ih =>
    intro acc l2
    rw [List.cons_append, dupScan_cons]
    conv_rhs => rw [dupScan_cons]
    cases hf : (acc.find? (fun p => p.1 = c.pattern)).map (·.2) with
    | none =>
      simp only [hf]
      exact ih _ _
    | some prev =>
      simp only [hf]
      by_cases hi : chainsIntersect prev.routeNames c.routeNames
      · rw [if_pos hi, if_pos hi]
        exact ih _ _
      · rw [if_neg hi, if_neg hi]

lemma dupScan_fresh (l : List RouteConfig) :
    ∀ (acc : List (String × RouteConfig)),
    (∀ c ∈ l, ∀ q ∈ acc, q.1 ≠ c.pattern) →
    ((l.map (·.pattern)).Pairwise (· ≠ ·)) →
    dupScan acc l = .ok (acc ++ l.map (fun c => (c.pattern, c))) := by
  induction l with
  | nil =>
    intro acc _ _
    simp [dupScan]
  | cons c rest ih =>
    intro acc hfresh hpw
    rw [dupScan_cons]
    have hfind : acc.find? (fun p => p.1 = c.pattern) = none := by
      apply List.find?_eq_none.mpr
      intro q hq
      simp only [decide_eq_true_eq]
      exact hfresh c (List.mem_cons_self c rest) q hq
    rw [hfind]
    simp only [Option.map_none']
    rw [setAccRC_fresh acc c.pattern c hfind]
    rw [List.map_cons, List.pairwise_cons] at hpw
    rw [ih (acc ++ [(c.pattern, c)]) ?_ hpw.2]
    · simp
    · intro c' hc' q hq
      rw [List.mem_append] at hq
      rcases hq with hq | hq
      · exact hfresh c' (List.mem_cons_of_mem c hc') q hq
      · simp at hq
        rw [hq]
        exact hpw.1 c'.pattern (List.mem_map_of_mem (·.pattern) hc')

lemma checkDuplicates_two (p : String) (c1 c2 : RouteConfig) (l1 l2 l3 : List RouteConfig)
    (h1 : c1.pattern = p) (h2 : c2.pattern = p)
    (hothers : ∀ c ∈ l1 ++ l2 ++ l3, c.pattern ≠ p)
    (hpw : ((l1 ++ l2 ++ l3).map (·.pattern)).Pairwise (· ≠ ·)) :
    checkDuplicates (l1 ++ c1 :: (l2 ++ c2 :: l3)) =
      (if chainsIntersect c1.routeNames c2.routeNames then none
       else some ("Found conflicting screens with the same pattern. The pattern " ++ p ++
         " resolves to both " ++ joinGt c1.routeNames ++ " and " ++ joinGt c2.routeNames ++
         ". Patterns must be unique and cannot resolve to more than one screen.")) := by
  rw [List.append_assoc, List.map_append, List.pairwise_append] at hpw
  obtain ⟨pw1, pwrest, cross1⟩ := hpw
  rw [List.map_append, List.pairwise_append] at pwrest
  obtain ⟨pw2, pw3, cross23⟩ := pwrest
  have hol1 : ∀ c ∈ l1, c.pattern ≠ p := fun c hc => hothers c (by simp [hc])
  have hol2 : ∀ c ∈ l2, c.pattern ≠ p := fun c hc => hothers c (by simp [hc])
  have hol3 : ∀ c ∈ l3, c.pattern ≠ p := fun c hc => hothers c (by simp [hc])
  rw [checkDuplicates]
  rw [dupScan_append l1]
  have s1 : dupScan [] l1 = .ok (l1.map (fun c => (c.pattern, c))) := by
    have := dupScan_fresh l1 [] (by intro c _ q hq; simp at hq) pw1
    simpa using this
  rw [s1]
  simp only []
  rw [dupScan_cons]
  have hfind1 : (l1.map (fun c => (c.pattern, c))).find? (fun q => q.1 = c1.pattern) = none := by
    apply List.find?_eq_none.mpr
    intro q hq
    rw [List.mem_map] at hq
    obtain ⟨c, hc, rfl⟩ := hq
    simp only [decide_eq_true_eq]
    rw [h1]
    exact hol1 c hc
  rw [hfind1]
  simp only [Option.map_none']
  rw [setAccRC_fresh _ _ _ hfind1]
  rw [dupScan_append l2]
  have s2 : dupScan (l1.map (fun c => (c.pattern, c)) ++ [(c1.pattern, c1)]) l2 =
      .ok ((l1.map (fun c => (c.pattern, c)) ++ [(c1.pattern, c1)]) ++
        l2.map (fun c => (c.pattern, c))) := by
    apply dupScan_fresh l2 _ ?_ pw2
    intro c hc q hq
    rw [List.mem_append] at hq
    rcases hq with hq | hq
    · rw [List.mem_map] at hq
      obtain ⟨c', hc', rfl⟩ := hq
      simp only
      intro heq
      exact cross1 c'.pattern (List.mem_map_of_mem _ hc')
        c.pattern (by rw [List.map_append]; exact List.mem_append_left _ (List.mem_map_of_mem _ hc)) heq
    · simp at hq
      rw [hq]
      simp only [h1]
      intro heq
      exact hol2 c hc heq.symm
  rw [s2]
  simp only []
  rw [dupScan_cons]
  have hfind2 : ((l1.map (fun c => (c.pattern, c)) ++ [(c1.pattern, c1)]) ++
      l2.map (fun c => (c.pattern, c))).find? (fun q => q.1 = c2.pattern) =
      some (c1.pattern, c1) := by
    rw [List.find?_append, List.find?_append]
    have f1 : (l1.map (fun c => (c.pattern, c))).find? (fun q => q.1 = c2.pattern) = none := by
      apply List.find?_eq_none.mpr
      intro q hq
      rw [List.mem_map] at hq
      obtain ⟨c, hc, rfl⟩ := hq
      simp only [decide_eq_true_eq]
      rw [h2]
      exact hol1 c hc
    have f2 : ([(c1.pattern, c1)] : List (String × RouteConfig)).find?
        (fun q => q.1 = c2.pattern) = some (c1.pattern, c1) := by
      rw [List.find?_cons_of_pos _ (by simp [h1, h2])]
    rw [f1, f2]
    rfl
  rw [hfind2]
  simp only [Option.map_some']
  by_cases hi : chainsIntersect c1.routeNames c2.routeNames
  · rw [if_pos hi]
    have s3 : dupScan (setAccRC ((l1.map (fun c => (c.pattern, c)) ++ [(c1.pattern, c1)]) ++
        l2.map (fun c => (c.pattern, c))) c2.pattern c2) l3 =
        .ok ((setAccRC ((l1.map (fun c => (c.pattern, c)) ++ [(c1.pattern, c1)]) ++
          l2.map (fun c => (c.pattern, c))) c2.pattern c2) ++
          l3.map (fun c => (c.pattern, c))) := by
      apply dupScan_fresh l3 _ ?_ pw3
      intro c hc q hq
      rcases mem_setAccRC _ _ _ _ hq with hq1 | hq1
      · rw [hq1, h2]
        exact fun heq => hol3 c hc heq.symm
      · rw [List.mem_append] at hq1
        rcases hq1 with hq1 | hq1
        · rw [List.mem_append] at hq1
          rcases hq1 with hq1 | hq1
          · rw [List.mem_map] at hq1
            obtain ⟨c', hc', rfl⟩ := hq1
            simp only
            intro heq
            exact cross1 c'.pattern (List.mem_map_of_mem _ hc') c.pattern
              (by rw [List.map_append]; exact List.mem_append_right _ (List.mem_map_of_mem _ hc)) heq
          · simp at hq1
            rw [hq1, h1]
            exact fun heq => hol3 c hc heq.symm
        · rw [List.mem_map] at hq1
          obtain ⟨c', hc', rfl⟩ := hq1
          simp only
          intro heq
          exact cross23 c'.pattern (List.mem_map_of_mem _ hc')
            c.pattern (List.mem_map_of_mem _ hc) heq
    rw [s3]
    simp [hi]
  · rw [if_neg hi]
    simp [hi, h2]


/-! ### The only error a valid configuration can raise is the URIError -/

lemma decodeGo_error : ∀ (fuel : Nat) (cs : List Char) (e : String),
    decodeGo fuel cs = .error e → e = uriError := by
  intro fuel
  induction fuel with
  | zero =>
    intro cs e h
    cases cs with
    | nil => simp [decodeGo] at h
    | cons c cs =>
      simp only [decodeGo, Except.error.injEq] at h
      exact h.symm
  | succ n ih =>
    intro cs e h
    cases cs with
    | nil => simp [decodeGo] at h
    | cons c cs =>
      rw [decodeGo] at h
      split at h
      · split at h
        · simp only [Except.error.injEq] at h
          exact h.symm
        · split at h
          · split at h
            · simp at h
            · rename_i e2 he2
              simp only [Except.error.injEq] at h
              exact h ▸ ih _ _ he2
          · split at h
            · simp only [Except.error.injEq] at h
              exact h.symm
            · split at h
              · simp at h
              · rename_i e2 he2
                simp only [Except.error.injEq] at h
                exact h ▸ ih _ _ he2
      · split at h
        · simp at h
        · rename_i e2 he2
          simp only [Except.error.injEq] at h
          exact h ▸ ih _ _ he2

lemma decodeURIComponent_error (s e : String) :
    decodeURIComponent s = .error e → e = uriError := by
  intro h
  rw [decodeURIComponent] at h
  split at h
  · simp at h
  · rename_i e2 he2
    simp only [Except.error.injEq] at h
    exact h ▸ decodeGo_error _ _ _ he2

lemma buildStep_error (caps : List (Option String)) (acc : Except String (Nat × MatchedParams))
    (p : Nat × String) (e : String) (h : buildStep caps acc p = .error e) :
    acc = .error e ∨ e = uriError := by
  obtain ⟨index, seg⟩ := p
  rw [buildStep.eq_def] at h
  split at h
  · left
    exact h
  · split at h
    split at h
    · simp at h
    · split at h
      · simp at h
      · split at h
        · simp at h
        · split at h
          · rename_i e2 he2
            simp only [Except.error.injEq] at h
            right
            exact h ▸ decodeURIComponent_error _ _ he2
          · simp at h

lemma foldl_buildStep_error (caps : List (Option String)) :
    ∀ (l : List (Nat × String)) (acc : Except String (Nat × MatchedParams)) (e : String),
      l.foldl (buildStep caps) acc = .error e → acc = .error e ∨ e = uriError := by
  intro l
  induction l with
  | nil =>
    intro acc e h
    left
    simpa using h
  | cons p ps ih =>
    intro acc e h
    simp only [List.foldl_cons] at h
    rcases ih (buildStep caps acc p) e h with h1 | h1
    · exact buildStep_error caps acc p e h1
    · right
      exact h1

lemma buildMatchedParams_error (pattern : String) (caps : List (Option String)) (e : String) :
    buildMatchedParams pattern caps = .error e → e = uriError := by
  intro h
  rw [buildMatchedParams] at h
  cases hf : (splitOnChar '/' pattern).enum.foldl (buildStep caps) (.ok (0, [])) with
  | ok v =>
    rw [hf] at h
    simp [Except.map] at h
  | error e2 =>
    rw [hf] at h
    simp only [Except.map, Except.error.injEq] at h
    rcases foldl_buildStep_error caps _ _ _ hf with h1 | h1
    · exact absurd h1 (by simp)
    · exact h ▸ h1

lemma matchGo_error (remaining : String) (configs : List RouteConfig) :
    ∀ (l : List RouteConfig) (e : String),
      matchAgainstConfigs.go remaining configs l = .error e → e = uriError := by
  intro l
  induction l with
  | nil =>
    intro e h
    simp [matchAgainstConfigs.go] at h
  | cons config rest ih =>
    intro e h
    rw [matchAgainstConfigs.go] at h
    split at h
    · exact ih e h
    · split at h
      · exact ih e h
      · split at h
        · rename_i segs hr caps hm e2 he2
          simp only [Except.error.injEq] at h
          exact h ▸ buildMatchedParams_error _ _ _ he2
        · simp at h

lemma matchAgainstConfigs_error (remaining : String) (configs : List RouteConfig) (e : String) :
    matchAgainstConfigs remaining configs = .error e → e = uriError := by
  intro h
  rw [matchAgainstConfigs] at h
  exact matchGo_error remaining configs configs e h

lemma decodeSegments_error : ∀ (l : List String) (e : String),
    decodeSegments l = .error e → e = uriError := by
  intro l
  induction l with
  | nil =>
    intro e h
    simp [decodeSegments] at h
  | cons x xs ih =>
    intro e h
    rw [decodeSegments] at h
    split at h
    · rename_i e2 he2
      simp only [Except.error.injEq] at h
      exact h ▸ decodeURIComponent_error _ _ he2
    · split at h
      · rename_i e2 he2
        simp only [Except.error.injEq] at h
        exact h ▸ ih _ he2
      · simp at h

lemma resolveNoConfig_error (path remaining : String) (inits : List InitialRouteConfig)
    (hash : String) (e : String) :
    resolveNoConfig path remaining inits hash = .error e → e = uriError := by
  intro h
  rw [resolveNoConfig] at h
  split at h
  · rename_i e2 he2
    simp only [Except.error.injEq] at h
    exact h ▸ decodeSegments_error _ _ he2
  · split at h
    · simp at h
    · simp at h

lemma resolveMatched_error (cleanPath remaining : String) (configs : List RouteConfig)
    (inits : List InitialRouteConfig) (hash : String) (e : String) :
    resolveMatched cleanPath remaining configs inits hash = .error e → e = uriError := by
  intro h
  rw [resolveMatched] at h
  split at h
  · rename_i e2 he2
    simp only [Except.error.injEq] at h
    exact h ▸ matchAgainstConfigs_error _ _ _ he2
  · split at h
    · simp at h
    · simp at h
  · simp at h

lemma valid_config_error_uri (previousSegments : List String) (path : String)
    (options : Option Options)
    (hvalid : configErrorOf previousSegments options = none) :
    ∀ e, getStateFromPath previousSegments path options = .error e → e = uriError := by
  intro e h
  cases hh : getExpoHelpers path envBaseUrl with
  | none =>
    rw [show getStateFromPath previousSegments path options = .ok (none, []) from by
      simp [getStateFromPath, hh]] at h
    simp at h
  | some helpers =>
    cases hp : applyPrefixToRemaining (options.bind (·.path))
        (remainingOf helpers.nonstandardPathname) with
    | none =>
      rw [show getStateFromPath previousSegments path options = .ok (none, []) from by
        simp [getStateFromPath, hh, hp]] at h
      simp at h
    | some remaining =>
      cases hs : options.bind (·.screens) with
      | none =>
        rw [show getStateFromPath previousSegments path options =
            resolveNoConfig path remaining (initialRoutesSeed options) helpers.hash from by
          simp [getStateFromPath, hh, hp, hs]] at h
        exact resolveNoConfig_error _ _ _ _ _ h
      | some scr =>
        cases hc : createAllConfigs scr (initialRoutesSeed options) with
        | error e2 =>
          exfalso
          simp [configErrorOf, hs, hc] at hvalid
        | ok pr =>
          obtain ⟨cs, inits⟩ := pr
          cases hd : checkDuplicates
              (sortWith (sortConfigs (initialPatternsOf inits) previousSegments) cs) with
          | some e2 =>
            exfalso
            simp [configErrorOf, hs, hc, hd] at hvalid
          | none =>
            by_cases hr : remaining = "/"
            · rw [show getStateFromPath previousSegments path options =
                  .ok (resolveRoot helpers.cleanPath
                    (sortWith (sortConfigs (initialPatternsOf inits) previousSegments) cs)
                    inits helpers.hash) from by
                simp [getStateFromPath, hh, hp, hs, hc, hd, hr]] at h
              simp at h
            · rw [show getStateFromPath previousSegments path options =
                  resolveMatched helpers.cleanPath remaining
                    (sortWith (sortConfigs (initialPatternsOf inits) previousSegments) cs)
                    inits helpers.hash from by
                simp [getStateFromPath, hh, hp, hs, hc, hd, hr]] at h
              exact resolveMatched_error _ _ _ _ _ _ h

/-! ### Supporting lemmas about the focused spine of the assembled state -/

lemma buildStateRec_spine_names (inits : List InitialRouteConfig)
    (xform : ParsedRoute → StateRoute × List String)
    (hstate : ∀ r, ((xform r).1).state = none)
    (hname : ∀ r, ((xform r).1).name = r.name) :
    ∀ (rest : List ParsedRoute) (ps : List String) (first : ParsedRoute),
    (focusedSpine (buildStateRec inits xform ps first rest).1).map StateRoute.name =
      (first :: rest).map ParsedRoute.name := by
  intro rest
  induction rest with
  | nil =>
    intro ps first
    rw [buildStateRec]
    rcases hxf : xform first with ⟨f, warns⟩
    have hfs : f.state = none := by
      have := hstate first
      rw [hxf] at this
      exact this
    have hfn : f.name = first.name := by
      have := hname first
      rw [hxf] at this
      exact this
    rcases f with ⟨n, p, pr, st⟩
    simp only [StateRoute.state] at hfs
    subst hfs
    cases hi : findInitialRoute first.name ps inits with
    | none =>
      simp [focusedSpine, spineFromRoutes, spineBelow, StateRoute.name] at hfn ⊢
      exact hfn
    | some init =>
      simp [focusedSpine, spineFromRoutes, spineBelow, StateRoute.name] at hfn ⊢
      exact hfn
  | cons next more ih =>
    intro ps first
    rw [buildStateRec]
    cases hi : findInitialRoute first.name ps inits with
    | none =>
      simp only [createStateObject, Bool.false_eq_true, if_false]
      rcases hb : buildStateRec inits xform (ps ++ [first.name]) next more with ⟨child, warns⟩
      simp only [setRouteStateAt, focusedSpine, spineFromRoutes, spineBelow]
      have := ih (ps ++ [first.name]) next
      rw [hb] at this
      simp only [List.map_cons]
      rw [List.map_cons] at this
      simp [List.enum, spineFromRoutes, spineBelow, StateRoute.name, this]
    | some init =>
      simp only [createStateObject, Bool.false_eq_true, if_false]
      rcases hb : buildStateRec inits xform (ps ++ [first.name]) next more with ⟨child, warns⟩
      simp only [setRouteStateAt, focusedSpine, spineFromRoutes, spineBelow]
      have := ih (ps ++ [first.name]) next
      rw [hb] at this
      simp only [List.map_cons]
      rw [List.map_cons] at this
      simp [List.enum, spineFromRoutes, spineBelow, StateRoute.name, this]

lemma buildStateRec_spine_params (inits : List InitialRouteConfig)
    (xform : ParsedRoute → StateRoute × List String)
    (hstate : ∀ r, ((xform r).1).state = none) :
    ∀ (rest : List ParsedRoute) (ps : List String) (first : ParsedRoute),
    (focusedSpine (buildStateRec inits xform ps first rest).1).map StateRoute.params =
      ((first :: rest).dropLast.map ParsedRoute.params) ++
        [((xform (rest.getLastD first)).1).params] := by
  intro rest
  induction rest with
  | nil =>
    intro ps first
    rw [buildStateRec]
    rcases hxf : xform first with ⟨f, warns⟩
    have hfs : f.state = none := by
      have := hstate first
      rw [hxf] at this
      exact this
    rcases f with ⟨n, p, pr, st⟩
    simp only [StateRoute.state] at hfs
    subst hfs
    cases hi : findInitialRoute first.name ps inits with
    | none =>
      simp [focusedSpine, spineFromRoutes, spineBelow, StateRoute.params, hxf]
    | some init =>
      simp [focusedSpine, spineFromRoutes, spineBelow, StateRoute.params, hxf]
  | cons next more ih =>
    intro ps first
    rw [buildStateRec]
    cases hi : findInitialRoute first.name ps inits with
    | none =>
      simp only [createStateObject, Bool.false_eq_true, if_false]
      rcases hb : buildStateRec inits xform (ps ++ [first.name]) next more with ⟨child, warns⟩
      simp only [setRouteStateAt, focusedSpine, spineFromRoutes, spineBelow]
      have := ih (ps ++ [first.name]) next
      rw [hb] at this
      simp [List.enum, spineFromRoutes, spineBelow, StateRoute.params, this, List.getLastD_cons]
      rw [List.getLast?_cons]
      simp
    | some init =>
      simp only [createStateObject, Bool.false_eq_true, if_false]
      rcases hb : buildStateRec inits xform (ps ++ [first.name]) next more with ⟨child, warns⟩
      simp only [setRouteStateAt, focusedSpine, spineFromRoutes, spineBelow]
      have := ih (ps ++ [first.name]) next
      rw [hb] at this
      simp [List.enum, spineFromRoutes, spineBelow, StateRoute.params, this, List.getLastD_cons]
      rw [List.getLast?_cons]
      simp

lemma getLastD_map {α β : Type} (f : α → β) (l : List α) (a : α) :
    (l.map f).getLastD (f a) = f (l.getLastD a) := by
  induction l generalizing a with
  | nil => rfl
  | cons x xs ih =>
    rw [List.map_cons, List.getLastD_cons, List.getLastD_cons]
    exact ih x

lemma createNestedStateObject_names (path : String) (first : ParsedRoute)
    (rest : List ParsedRoute) (inits : List InitialRouteConfig)
    (flatConfig : Option (List RouteConfig)) (hash : String) :
    (focusedSpine (createNestedStateObject path first rest inits flatConfig hash).1).map
        StateRoute.name = (first :: rest).map ParsedRoute.name := by
  rw [createNestedStateObject.eq_def]
  apply buildStateRec_spine_names
  · intro r
    cases hq : parseQueryParams path
        (match flatConfig with
          | some fc => findParseConfigForRoute (rest.getLastD first).name fc
          | none => none) hash <;> rfl
  · intro r
    cases hq : parseQueryParams path
        (match flatConfig with
          | some fc => findParseConfigForRoute (rest.getLastD first).name fc
          | none => none) hash <;> rfl

lemma createNestedStateObject_params (path : String) (first : ParsedRoute)
    (rest : List ParsedRoute) (inits : List InitialRouteConfig)
    (flatConfig : Option (List RouteConfig)) (hash : String) :
    (focusedSpine (createNestedStateObject path first rest inits flatConfig hash).1).map
        StateRoute.params =
      ((first :: rest).dropLast.map ParsedRoute.params) ++
        [(match parseQueryParams path
            (match flatConfig with
              | some fc => findParseConfigForRoute (rest.getLastD first).name fc
              | none => none) hash with
          | some ps => (mutateRouteParams (rest.getLastD first).name
              ((rest.getLastD first).params) ps).1
          | none => (rest.getLastD first).params)] := by
  rw [createNestedStateObject.eq_def]
  rw [buildStateRec_spine_params _ _ ?_ rest [] first]
  · congr 1
    cases hq : parseQueryParams path
        (match flatConfig with
          | some fc => findParseConfigForRoute (rest.getLastD first).name fc
          | none => none) hash <;> simp [hq, StateRoute.params]
  · intro r
    cases hq : parseQueryParams path
        (match flatConfig with
          | some fc => findParseConfigForRoute (rest.getLastD first).name fc
          | none => none) hash <;> rfl

lemma mkroutes_names (l : List String) :
    (l.map (fun name => ({ name } : ParsedRoute))).map ParsedRoute.name = l := by
  induction l with
  | nil => rfl
  | cons x xs ih => simp [ih]

lemma mkroutes_params_replicate (l : List String) :
    (l.map (fun name => ({ name } : ParsedRoute))).map
      ParsedRoute.params = List.replicate l.length none := by
  induction l with
  | nil => rfl
  | cons x xs ih => simp [ih, List.replicate]

/-- Claim C2 (amended): in the comparator, a static route (no dynamic, wildcard
or not-found segment outside group segments and no child screens) sorts strictly
before a non-static route, provided the earlier stages do not decide first:
the two patterns differ and neither pattern is a string-prefix of the other
with a non-index screen on the longer side. -/
theorem static_before_dynamic_amended :
    ∀ (initialPatterns previousSegments : List String) (a b : RouteConfig),
      a.pattern ≠ b.pattern →
      ¬(jsStartsWith a.pattern b.pattern = true ∧ b.screen ≠ "index") →
      ¬(jsStartsWith b.pattern a.pattern = true ∧ a.screen ≠ "index") →
      isStaticRoute a = true → isStaticRoute b = false →
      sortConfigs initialPatterns previousSegments a b = -1 := by
  intro ip ps a b h1 h2 h3 h4 h5
  unfold sortConfigs
  simp [h1, h2, h3, h4, h5]

theorem static_before_dynamic_witness :
    sortConfigs [] [] cfgUsersSettings cfgUsersDyn = -1 ∧
    matchAgainstConfigs "users/settings/" (sortedConfigsOf [] (some optsUsers)) =
      .ok (some [{ name := "UserSettings" }], "users/settings/") := by
  constructor
  · exact static_before_dynamic_amended [] [] cfgUsersSettings cfgUsersDyn
      (by decide) (by decide) (by decide) (by decide) (by decide)
  · rfl

/-- Claim C3 (amended): whenever the remaining path is the root `/` and
`getStateFromPath` returns a state, some flattened route has an empty own path
and every screen name in its chain resolves, through a global find over the
whole sorted flat list by screen name, to a config whose path is falsy; the
lookup is not restricted to the chain's own ancestors. -/
theorem rootPath_global_lookup_amended (previousSegments : List String) (path : String)
    (options : Option Options) (helpers : ExpoHelpers) (st : ResultState) (ws : List String)
    (hh : getExpoHelpers path envBaseUrl = some helpers)
    (hrem : applyPrefixToRemaining (options.bind (·.path))
      (remainingOf helpers.nonstandardPathname) = some "/")
    (hres : getStateFromPath previousSegments path options = .ok (some st, ws)) :
    ∃ m ∈ sortedConfigsOf previousSegments options,
      m.path = "" ∧
      ∀ name ∈ m.routeNames,
        truthyStr (((sortedConfigsOf previousSegments options).find?
          (fun c => c.screen = name)).map (·.path)) = false := by
  cases hs : options.bind (·.screens) with
  | none =>
    exfalso
    simp [getStateFromPath, hh, hrem, hs, resolveNoConfig, decodeSegments, splitOnChar,
      splitOnChar.go] at hres
  | some scr =>
    cases hc : createAllConfigs scr (initialRoutesSeed options) with
    | error e =>
      exfalso
      simp [getStateFromPath, hh, hrem, hs, hc] at hres
    | ok pr =>
      obtain ⟨cs, inits⟩ := pr
      cases hd : checkDuplicates
          (sortWith (sortConfigs (initialPatternsOf inits) previousSegments) cs) with
      | some e =>
        exfalso
        simp [getStateFromPath, hh, hrem, hs, hc, hd] at hres
      | none =>
        have hsc : sortedConfigsOf previousSegments options =
            sortWith (sortConfigs (initialPatternsOf inits) previousSegments) cs := by
          simp [sortedConfigsOf, flattenStage, hs, hc]
        rw [hsc]
        simp only [getStateFromPath, hh, hrem, hs, hc, hd] at hres
        cases hf : (sortWith (sortConfigs (initialPatternsOf inits) previousSegments) cs).find?
            (rootPathPred (sortWith (sortConfigs (initialPatternsOf inits) previousSegments) cs)) with
        | none =>
          exfalso
          simp [resolveRoot, hf] at hres
        | some m =>
          refine ⟨m, List.mem_of_find?_eq_some hf, ?_⟩
          have hp := List.find?_some hf
          simp only [rootPathPred, Bool.decide_and, Bool.and_eq_true, decide_eq_true_eq,
            List.all_eq_true] at hp
          refine ⟨hp.1, ?_⟩
          intro name hn
          have := hp.2 name hn
          simpa using this

theorem rootPath_global_lookup_witness :
    ∃ m ∈ sortedConfigsOf [] (some optsHome),
      m.path = "" ∧
      ∀ name ∈ m.routeNames,
        truthyStr (((sortedConfigsOf [] (some optsHome)).find?
          (fun c => c.screen = name)).map (·.path)) = false :=
  rootPath_global_lookup_amended [] "/" (some optsHome)
    ⟨"/", "", "/", ⟨"/", "", ""⟩⟩
    (.mk none [.mk "Home" (some "/") none none]) []
    (by rfl) (by rfl) (by rfl)

/-- C5 counterexample: a valid duplicate (chains `[A]` and `[A, B]`, one a
prefix of the other, both with pattern `p/:x`) proceeds past the duplicate
scan, yet the path `/p/%` still makes `getStateFromPath` throw: decoding the
captured `:x` segment raises `URIError`. The claimed equivalence between
failing and non-intersecting chains is therefore false of the program. -/
theorem duplicate_intersect_uri_counterexample :
    (sortedConfigsOf [] (some optsDupUri)).map (fun c => (c.pattern, c.routeNames)) =
      [("p/:x", ["A", "B"]), ("p/:x", ["A"])] ∧
    chainsIntersect ["A", "B"] ["A"] = true ∧
    getStateFromPath [] "/p/%" (some optsDupUri) = .error uriError :=
  ⟨rfl, rfl, rfl⟩

/-- Claim C5 (amended): when the sorted flat configs contain exactly one
duplicated pattern, held by two routes `c1` (sorted earlier) and `c2`,
`getStateFromPath` throws the duplicate-pattern configuration error (naming
both chains) precisely when neither route's routeNames chain is a prefix of
the other's; when one chain is a prefix of the other, resolution proceeds past
the duplicate scan and the only error it can still raise is the `URIError` of
percent-decoding, never a configuration error. -/
theorem duplicate_pattern_error_amended (previousSegments : List String) (path : String)
    (options : Option Options)
    (scr : ScreensMap) (helpers : ExpoHelpers) (remaining p : String)
    (c1 c2 : RouteConfig) (l1 l2 l3 : List RouteConfig)
    (hscr : options.bind (·.screens) = some scr)
    (hh : getExpoHelpers path envBaseUrl = some helpers)
    (hrem : applyPrefixToRemaining (options.bind (·.path))
      (remainingOf helpers.nonstandardPathname) = some remaining)
    (hsorted : sortedConfigsOf previousSegments options = l1 ++ c1 :: (l2 ++ c2 :: l3))
    (h1 : c1.pattern = p) (h2 : c2.pattern = p)
    (hothers : ∀ c ∈ l1 ++ l2 ++ l3, c.pattern ≠ p)
    (hpw : ((l1 ++ l2 ++ l3).map (·.pattern)).Pairwise (· ≠ ·)) :
    (chainsIntersect c1.routeNames c2.routeNames = false →
      getStateFromPath previousSegments path options =
        .error ("Found conflicting screens with the same pattern. The pattern " ++ p ++
          " resolves to both " ++ joinGt c1.routeNames ++ " and " ++ joinGt c2.routeNames ++
          ". Patterns must be unique and cannot resolve to more than one screen.")) ∧
    (chainsIntersect c1.routeNames c2.routeNames = true →
      ∀ e, getStateFromPath previousSegments path options = .error e → e = uriError) := by
  cases hc : createAllConfigs scr (initialRoutesSeed options) with
  | error e =>
    exfalso
    simp only [sortedConfigsOf, flattenStage, hscr, hc] at hsorted
    exact absurd hsorted.symm (by simp)
  | ok pr =>
    obtain ⟨cs, inits⟩ := pr
    have hsw : sortWith (sortConfigs (initialPatternsOf inits) previousSegments) cs =
        l1 ++ c1 :: (l2 ++ c2 :: l3) := by
      simp only [sortedConfigsOf, flattenStage, hscr, hc] at hsorted
      exact hsorted
    have hcd := checkDuplicates_two p c1 c2 l1 l2 l3 h1 h2 hothers hpw
    rw [← hsw] at hcd
    constructor
    · intro hint
      rw [hint] at hcd
      simp only [Bool.false_eq_true, if_false] at hcd
      simp [getStateFromPath, hh, hrem, hscr, hc, hcd]
    · intro hint e he
      rw [hint] at hcd
      simp only [if_true] at hcd
      have hvalid : configErrorOf previousSegments options = none := by
        simp [configErrorOf, hscr, hc, hcd]
      exact valid_config_error_uri previousSegments path options hvalid e he

theorem duplicate_pattern_error_witness :
    getStateFromPath [] "/zz" (some optsDupBad) =
      .error ("Found conflicting screens with the same pattern. The pattern p resolves " ++
        "to both B and A. Patterns must be unique and cannot resolve to more than one " ++
        "screen.") ∧
    uriError = uriError := by
  constructor
  · exact (duplicate_pattern_error_amended [] "/zz" (some optsDupBad)
      [("A", PathConfig.str "p"), ("B", PathConfig.str "p")]
      ⟨"/zz", "", "zz/", ⟨"/zz", "", ""⟩⟩ "zz/" "p" cfgDupB cfgDupA [] [] []
      (by rfl) (by rfl) (by rfl) (by rfl) (by rfl) (by rfl)
      (by intro c hc; simp at hc) (by simp)).1 (by rfl)
  · exact (duplicate_pattern_error_amended [] "/p/%" (some optsDupUri)
      [("A", PathConfig.obj (some "p/:x") none none none (some [("B", PathConfig.str "")]))]
      ⟨"/p/%", "", "p/%/", ⟨"/p/%", "", ""⟩⟩ "p/%/" "p/:x" cfgDupUriB cfgDupUriA [] [] []
      (by rfl) (by rfl) (by rfl) (by rfl) (by rfl) (by rfl)
      (by intro c hc; simp at hc) (by simp)).2 (by rfl) uriError (by rfl)

/-- Claim C6 (amended): in the segment-by-segment stage of the comparator, when
both current segments are wildcards, the reserved `*not-found` sorts after any
other wildcard segment — in either argument order.  (The stronger reading that
a `*not-found` route never outranks another wildcard route fails, because the
string-prefix stage runs first.) -/
theorem notFound_wildcard_segment_amended (pb : String) (ta tb : List String)
    (hb : jsStartsWith pb "*" = true) (hnb : pb ≠ "*not-found") :
    comparePartsLoop ("*not-found" :: ta) (pb :: tb) = some 1 ∧
    comparePartsLoop (pb :: tb) ("*not-found" :: ta) = some (-1) := by
  constructor <;> simp [comparePartsLoop, hb, hnb] <;> decide

theorem notFound_wildcard_segment_witness :
    comparePartsLoop ["*not-found"] ["*rest"] = some 1 ∧
    comparePartsLoop ["*rest"] ["*not-found"] = some (-1) :=
  notFound_wildcard_segment_amended "*rest" [] [] (by decide) (by decide)

/-- Claim C8: after a successful match every `ParsedRoute` of the returned
chain carries the same params record, and the record merged by `Object.assign`
folding answers lookups with the later (inner) route's entry overriding the
earlier (outer) one whenever the keys of the later record are distinct. -/
theorem params_cascade_shared :
    (∀ (remaining : String) (configs : List RouteConfig)
        (routes : List ParsedRoute) (rp : String),
      matchAgainstConfigs remaining configs = .ok (some routes, rp) →
      ∀ r1 ∈ routes, ∀ r2 ∈ routes, r1.params = r2.params) ∧
    (∀ (m1 m2 : Rec) (k : String), (m2.map Prod.fst).Nodup →
      lookupRec (assignRec m1 m2) k =
        match lookupRec m2 k with
        | some v => some v
        | none => lookupRec m1 k) := by
  constructor
  · intro remaining configs routes rp h
    rw [matchAgainstConfigs] at h
    exact matchGo_params_eq remaining configs configs routes rp h
  · exact fun m1 m2 k h => lookupRec_assignRec m1 m2 k h

theorem params_cascade_shared_witness :
    (⟨"P", none, some [("a", Value.vstr "1"), ("b", Value.vstr "2")]⟩ : ParsedRoute).params =
      (⟨"C", none, some [("a", Value.vstr "1"), ("b", Value.vstr "2")]⟩ : ParsedRoute).params ∧
    lookupRec (assignRec [("a", Value.vstr "0")] [("a", Value.vstr "1")]) "a" =
      some (Value.vstr "1") := by
  constructor
  · exact params_cascade_shared.1 "p/1/2/" (sortedConfigsOf [] (some optsCascade))
      routesCascade "p/2/" (by rfl)
      (⟨"P", none, some [("a", Value.vstr "1"), ("b", Value.vstr "2")]⟩ : ParsedRoute)
      (by simp [routesCascade])
      (⟨"C", none, some [("a", Value.vstr "1"), ("b", Value.vstr "2")]⟩ : ParsedRoute)
      (by simp [routesCascade])
  · exact (params_cascade_shared.2 [("a", Value.vstr "0")] [("a", Value.vstr "1")] "a"
      (by simp)).trans (by rfl)

/-- C9 counterexample: a configuration that passes flatten-time validation can
still make `getStateFromPath` throw — the single dynamic screen `:a` is valid,
yet resolving `/%` raises the `URIError` of `decodeURIComponent` on the
malformed escape captured by the dynamic segment. Configuration errors are
therefore not the only thrown errors. -/
theorem valid_config_uri_throw_counterexample :
    configErrorOf [] (some optsUriDyn) = none ∧
    getStateFromPath [] "/%" (some optsUriDyn) = .error uriError :=
  ⟨rfl, rfl⟩

/-- Claim C9 (amended): with a configuration that passes flatten-time
validation, the only error `getStateFromPath` can still throw is the
`URIError` raised while percent-decoding; and each of the three
undefined-producing conditions — unparseable URL, path outside the configured
base prefix, and no matching compiled rule — yields `ok (none, [])` rather
than an error. -/
theorem only_config_and_uri_errors_amended (previousSegments : List String) (path : String)
    (options : Option Options)
    (hvalid : configErrorOf previousSegments options = none) :
    (∀ e, getStateFromPath previousSegments path options = .error e → e = uriError) ∧
    (getExpoHelpers path envBaseUrl = none →
      getStateFromPath previousSegments path options = .ok (none, [])) ∧
    (∀ helpers, getExpoHelpers path envBaseUrl = some helpers →
      applyPrefixToRemaining (options.bind (·.path))
        (remainingOf helpers.nonstandardPathname) = none →
      getStateFromPath previousSegments path options = .ok (none, [])) ∧
    (∀ helpers remaining scr rp, getExpoHelpers path envBaseUrl = some helpers →
      applyPrefixToRemaining (options.bind (·.path))
        (remainingOf helpers.nonstandardPathname) = some remaining →
      options.bind (·.screens) = some scr →
      remaining ≠ "/" →
      matchAgainstConfigs remaining (sortedConfigsOf previousSegments options) =
        .ok (none, rp) →
      getStateFromPath previousSegments path options = .ok (none, [])) := by
  refine ⟨valid_config_error_uri previousSegments path options hvalid, ?_, ?_, ?_⟩
  · intro h
    simp [getStateFromPath, h]
  · intro helpers hh hp
    simp [getStateFromPath, hh, hp]
  · intro helpers remaining scr rp hh hp hs hr hm
    cases hc : createAllConfigs scr (initialRoutesSeed options) with
    | error e =>
      exfalso
      simp [configErrorOf, hs, hc] at hvalid
    | ok pr =>
      obtain ⟨cs, inits⟩ := pr
      cases hd : checkDuplicates
          (sortWith (sortConfigs (initialPatternsOf inits) previousSegments) cs) with
      | some e =>
        exfalso
        simp [configErrorOf, hs, hc, hd] at hvalid
      | none =>
        have hsc : sortedConfigsOf previousSegments options =
            sortWith (sortConfigs (initialPatternsOf inits) previousSegments) cs := by
          simp [sortedConfigsOf, flattenStage, hs, hc]
        rw [hsc] at hm
        simp [getStateFromPath, hh, hp, hs, hc, hd, hr, resolveMatched, hm]

theorem only_config_and_uri_errors_witness :
    uriError = uriError ∧ getStateFromPath [] "/zzz" (some optsHome) = .ok (none, []) := by
  constructor
  · exact (only_config_and_uri_errors_amended [] "/%" (some optsUriDyn) (by rfl)).1
      uriError (by rfl)
  · exact (only_config_and_uri_errors_amended [] "/zzz" (some optsHome) (by rfl)).2.2.2
      ⟨"/zzz", "", "zzz/", ⟨"/zzz", "", ""⟩⟩ "zzz/"
      [("Home", PathConfig.obj (some "") none none none none)] "zzz/"
      (by rfl) (by rfl) (by rfl) (by decide) (by rfl)

/-- C10 counterexample: with no screens configuration, a path whose single
segment carries a malformed percent-escape does not produce a state:
`getStateFromPath('/%')` throws the `URIError` of `decodeURIComponent`
instead of returning a nested state for the segment. -/
theorem no_config_uri_throw_counterexample :
    ((splitOnChar '/' "%/").filter (· ≠ "")).length = 1 ∧
    getStateFromPath [] "/%" none = .error uriError :=
  ⟨rfl, rfl⟩

/-- Claim C10 (amended): with no screens configuration, a normalized path with
no segments yields `ok (none, [])`; a malformed percent-escape in any segment
makes the whole call throw that decoding error; and when every segment decodes,
the resulting state's focused chain is exactly the decoded segments in order,
with no pattern-derived params on any route (only the deepest route may
receive query-derived params). -/
theorem no_config_uses_segments_amended (previousSegments : List String) (path : String)
    (options : Option Options)
    (helpers : ExpoHelpers) (remaining : String)
    (hscreens : options.bind (·.screens) = none)
    (hh : getExpoHelpers path envBaseUrl = some helpers)
    (hrem : applyPrefixToRemaining (options.bind (·.path))
      (remainingOf helpers.nonstandardPathname) = some remaining) :
    ((splitOnChar '/' remaining).filter (· ≠ "") = [] →
      getStateFromPath previousSegments path options = .ok (none, [])) ∧
    (∀ e, decodeSegments ((splitOnChar '/' remaining).filter (· ≠ "")) = .error e →
      getStateFromPath previousSegments path options = .error e) ∧
    (∀ names, decodeSegments ((splitOnChar '/' remaining).filter (· ≠ "")) = .ok names →
      names ≠ [] →
      ∃ st ws, getStateFromPath previousSegments path options = .ok (some st, ws) ∧
        activeChainNames st = names ∧
        (focusedSpine st).map StateRoute.params =
          List.replicate (names.length - 1) none ++
            [(match parseQueryParams path none helpers.hash with
              | some ps => (mutateRouteParams (names.getLastD "") none ps).1
              | none => none)]) := by
  have hres : getStateFromPath previousSegments path options =
      resolveNoConfig path remaining (initialRoutesSeed options) helpers.hash := by
    simp [getStateFromPath, hh, hrem, hscreens]
  refine ⟨?_, ?_, ?_⟩
  · intro hempty
    rw [hres, resolveNoConfig, hempty]
    rfl
  · intro e hdec
    rw [hres, resolveNoConfig, hdec]
  · intro names hdec hne
    rw [hres, resolveNoConfig, hdec]
    cases names with
    | nil => exact absurd rfl hne
    | cons n ns =>
      simp only [List.map_cons]
      refine ⟨_, _, rfl, ?_, ?_⟩
      · rw [activeChainNames, createNestedStateObject_names, ← List.map_cons
          (fun name => ({ name } : ParsedRoute)) n ns]
        exact mkroutes_names (n :: ns)
      · rw [createNestedStateObject_params, ← List.map_cons
          (fun name => ({ name } : ParsedRoute)) n ns]
        rw [← List.map_dropLast, mkroutes_params_replicate, List.length_dropLast]
        rw [getLastD_map (fun name => ({ name } : ParsedRoute)) ns n]
        rw [List.getLastD_cons]

theorem no_config_segments_witness :
    ∃ st ws, getStateFromPath [] "/a/b" none = .ok (some st, ws) ∧
      activeChainNames st = ["a", "b"] ∧
      (focusedSpine st).map StateRoute.params =
        List.replicate ((["a", "b"] : List String).length - 1) none ++
          [(match parseQueryParams "/a/b" none "" with
            | some ps => (mutateRouteParams ((["a", "b"] : List String).getLastD "") none ps).1
            | none => none)] :=
  (no_config_uses_segments_amended [] "/a/b" none ⟨"/a/b", "", "a/b/", ⟨"/a/b", "", ""⟩⟩ "a/b/"
    (by rfl) (by rfl) (by rfl)).2.2 ["a", "b"] (by rfl) (by decide)

end Expo
